import Mathlib

/-!
# PMacc task scheduler and copy tasks: a verification development

Shallow embedding of

* `include/pmacc/type/Scheduler.hpp` (`PMaccProperties`, `EnqueuePolicy`, `Scheduler`),
* `include/pmacc/memory/buffers/CopyDeviceToDevice.hpp`,
* `include/pmacc/memory/buffers_new/copy/DeviceToHost.hpp`,
* `include/pmacc/communication/MPISend.hpp` (`TaskMPISend::run`),
* `include/picongpu/fields/MaxwellSolver/Lehe/Derivative.hpp`, in exact arithmetic,
* `include/picongpu/plugins/Checkpoint.hpp` (`Checkpoint::pluginLoad`).

Stateful code is written as explicit state passing.  Code of the redGrapes
library that the scheduler calls (`update_graph`, `task_properties`) is taken as
a parameter (`Env`).
-/

namespace pmacc

/-! ## Data model of `Scheduler.hpp` -/

/-- Task identifiers (`TaskContainer<TaskProperties>::TaskID`). -/
abbrev TaskID := Nat

/-- Access modes of a resource access. -/
inductive Mode where
  | Read
  | Write
  | ReadWrite
  deriving DecidableEq, Repr

/-- One declared access: a resource together with the mode it is used in. -/
structure ResourceAccess (R : Type) where
  resource : R
  mode : Mode
  deriving DecidableEq, Repr

/-- The base class `redGrapes::ResourceUser`: the list of declared accesses. -/
structure ResourceUser (R : Type) where
  access_list : List (ResourceAccess R)
  deriving DecidableEq, Repr

/-- The composed `TaskProperties<ResourceProperty, LabelProperty, PMaccProperties>`:
the `ResourceUser` base, the label and the `mpi_task` hint of `PMaccProperties`
(which its constructor initialises to `false`). -/
structure TaskProperties (R : Type) extends ResourceUser R where
  label : String
  mpi_task : Bool := false
  deriving DecidableEq, Repr

/-- The builder method `PMaccProperties::Builder::mpi_task`: sets the hint. -/
def TaskProperties.set_mpi_task {R : Type} (prop : TaskProperties R) : TaskProperties R :=
  { prop with mpi_task := true }

/-- A job `Job{ tasks, t }`: the task container is shared, the job is identified by its task. -/
structure Job where
  task : TaskID
  deriving DecidableEq, Repr

/-- The two members `main_queue` and `mpi_queue` a request hook can be bound to. -/
inductive QueueName where
  | main_queue
  | mpi_queue
  deriving DecidableEq, Repr

/-- One entry of `graph.schedule`: the jobs pushed to the thread so far, and the
queue its request hook calls `get_job` with (`none` before `set_request_hook`). -/
structure ThreadSchedule where
  jobs : List Job
  request_hook : Option QueueName
  deriving DecidableEq, Repr

/-- The method `ThreadSchedule::set_request_hook`: replaces the hook of the thread. -/
def ThreadSchedule.set_request_hook (t : ThreadSchedule) (q : QueueName) : ThreadSchedule :=
  { t with request_hook := some q }

/-- The method `ThreadSchedule::push`: appends a job to the thread. -/
def ThreadSchedule.push (t : ThreadSchedule) (job : Job) : ThreadSchedule :=
  { t with jobs := t.jobs ++ [job] }

/-- State of `Scheduler<SchedulingGraph>`.  `graph` is the content of the
scheduling graph that `update_graph` works on; `uptodate` is the flag of the
`StateScheduler` base and `precedence_flag` the flag of `graph.precedence_graph`.
`graph_updates` counts the calls of `update_graph` and `dot_files` lists the
files opened by the diagnostic export (`step` is its `static int step`). -/
structure Scheduler (G : Type) where
  graph : G
  schedule : List ThreadSchedule
  uptodate : Bool
  precedence_flag : Bool
  main_queue : List Job
  mpi_queue : List Job
  write_graph : Bool
  step : Nat
  dot_files : List String
  graph_updates : Nat
  deriving DecidableEq, Repr

/-- The redGrapes code the scheduler calls: `StateScheduler::update_graph`
(returns the tasks that became ready and the new graph content; it works on the
graph content and leaves the two flags to `test_and_set`) and
`TaskContainer::task_properties` (the properties of a task are fixed once it is
created). -/
structure Env (G R : Type) where
  update_graph : G → List TaskID × G
  task_properties : TaskID → TaskProperties R

/-- Semantics of `std::atomic_flag::test_and_set`: the old value is returned, the flag is set. -/
def test_and_set (flag : Bool) : Bool × Bool := (flag, true)

/-- Selects a queue member of the scheduler. -/
def Scheduler.queue {G : Type} (s : Scheduler G) : QueueName → List Job
  | QueueName.main_queue => s.main_queue
  | QueueName.mpi_queue => s.mpi_queue

/-- Replaces a queue member of the scheduler. -/
def Scheduler.set_queue {G : Type} (s : Scheduler G) : QueueName → List Job → Scheduler G
  | QueueName.main_queue, js => { s with main_queue := js }
  | QueueName.mpi_queue, js => { s with mpi_queue := js }

/-! ## `Scheduler::Scheduler` -/

/-- The constructor loop `for( size_t i = 0; i < size; i++ )` over `graph.schedule`,
started at index `i` with the remaining threads. -/
def bind_hooks (size : Nat) : Nat → List ThreadSchedule → List ThreadSchedule
  | _, [] => []
  | i, t :: ts =>
    (if i == 0 && decide (size > 1)
      then t.set_request_hook QueueName.mpi_queue
      else t.set_request_hook QueueName.main_queue) :: bind_hooks size (i + 1) ts

/-- The constructor `Scheduler( tasks, graph )`: the base class is given by the
graph content, its thread schedules and the two flags; queues start empty and
`write_graph` is `false`. -/
def Scheduler.new {G : Type} (graph : G) (schedule : List ThreadSchedule)
    (uptodate precedence_flag : Bool) : Scheduler G :=
  { graph := graph
    schedule := bind_hooks schedule.length 0 schedule
    uptodate := uptodate
    precedence_flag := precedence_flag
    main_queue := []
    mpi_queue := []
    write_graph := false
    step := 0
    dot_files := []
    graph_updates := 0 }

/-! ## `Scheduler::update_queues` -/

/-- Body of the loop `for( TaskID t : ready_tasks )`. -/
def push_ready {G R : Type} (env : Env G R) (s : Scheduler G) (t : TaskID) : Scheduler G :=
  let prop := env.task_properties t
  if prop.mpi_task && decide (s.schedule.length > 1)
    then { s with mpi_queue := s.mpi_queue ++ [Job.mk t] }
    else { s with main_queue := s.main_queue ++ [Job.mk t] }

/-- The diagnostic block `if( write_graph )` of `update_queues`. -/
def export_graph {G : Type} (s : Scheduler G) : Scheduler G :=
  if s.write_graph
    then { s with
            dot_files := s.dot_files ++ ["step_" ++ toString s.step ++ ".dot"]
            step := s.step + 1 }
    else s

/-- The method `Scheduler::update_queues`. -/
def update_queues {G R : Type} (env : Env G R) (s : Scheduler G) : Scheduler G :=
  let u1 := test_and_set s.uptodate
  let u2 := test_and_set s.precedence_flag
  let s1 := { s with uptodate := u1.2, precedence_flag := u2.2 }
  let s2 :=
    if !u1.1 || !u2.1 then
      let r := env.update_graph s1.graph
      r.1.foldl (push_ready env)
        { s1 with graph := r.2, graph_updates := s1.graph_updates + 1 }
    else s1
  export_graph s2

/-! ## `Scheduler::get_job` -/

/-- Applies `thread.push( job )` to the thread at index `i` of `graph.schedule`. -/
def push_thread (job : Job) : Nat → List ThreadSchedule → List ThreadSchedule
  | _, [] => []
  | 0, t :: ts => t.push job :: ts
  | i + 1, t :: ts => t :: push_thread job i ts

/-- The statement `if( queue.empty() ) update_queues();` of `get_job`. -/
def refill_if_empty {G R : Type} (env : Env G R) (s : Scheduler G) (queue : QueueName) :
    Scheduler G :=
  if (s.queue queue).isEmpty then update_queues env s else s

/-- The method `Scheduler::get_job( thread, queue )`, the thread given by its
index in `graph.schedule`.  The lock on `queue_mutex` makes the body atomic. -/
def get_job {G R : Type} (env : Env G R) (s : Scheduler G) (thread : Nat) (queue : QueueName) :
    Scheduler G :=
  let s1 := refill_if_empty env s queue
  match s1.queue queue with
  | [] => s1
  | job :: rest => { s1.set_queue queue rest with schedule := push_thread job thread s1.schedule }

/-! ## `EnqueuePolicy` -/

/-- Whether an access of this mode writes the resource. -/
def Mode.writes : Mode → Bool
  | Mode.Read => false
  | Mode.Write => true
  | Mode.ReadWrite => true

/-- Modelled from the spec: `redGrapes::ResourceUser::is_serial`, which is not part
of the sources at hand.  Section 4.1: "true iff A and B must not run concurrently
(overlapping resource, at least one Write)".  `overlaps` is the overlap test of the
resources (sub-resources of one buffer may overlap). -/
def ResourceUser.is_serial {R : Type} (overlaps : R → R → Bool) (a b : ResourceUser R) : Bool :=
  a.access_list.any fun ra =>
    b.access_list.any fun rb =>
      overlaps ra.resource rb.resource && (ra.mode.writes || rb.mode.writes)

/-- The function `EnqueuePolicy::is_serial`: both arguments are passed on as
their `ResourceUser` base. -/
def EnqueuePolicy.is_serial {R : Type} (overlaps : R → R → Bool) (a b : TaskProperties R) : Bool :=
  ResourceUser.is_serial overlaps a.toResourceUser b.toResourceUser

/-- What `EnqueuePolicy::assert_superset` uses from outside of `Scheduler.hpp`:
`redGrapes::ResourceUser::is_superset`, the stream output of a `ResourceUser`
and the text that `functor_backtrace` appends to the stream. -/
structure PolicyEnv (R : Type) where
  is_superset : ResourceUser R → ResourceUser R → Bool
  show_access : ResourceUser R → String
  functor_backtrace : String

/-- The manipulator `std::endl`. -/
def endl : String := "\n"

/-- The text streamed by `assert_superset` before `functor_backtrace` is called. -/
def superset_text {R : Type} (p : PolicyEnv R) (super sub : TaskProperties R) : String :=
  "Not allowed: " ++ super.label ++ "is no superset of " ++ sub.label ++ endl
    ++ super.label ++ " has access: " ++ endl
    ++ p.show_access super.toResourceUser ++ endl ++ endl
    ++ sub.label ++ " has access: " ++ endl
    ++ p.show_access sub.toResourceUser ++ endl

/-- The function `EnqueuePolicy::assert_superset`; `throw std::runtime_error(msg)`
is `Except.error msg`. -/
def EnqueuePolicy.assert_superset {R : Type} (p : PolicyEnv R) (super sub : TaskProperties R) :
    Except String Unit :=
  if !p.is_superset super.toResourceUser sub.toResourceUser then
    let stream := superset_text p super sub
    let stream := stream ++ p.functor_backtrace
    Except.error stream
  else
    Except.ok ()

/-! ## CUDA calls made by the copy tasks -/

/-- The dimensions `DIM1`, `DIM2`, `DIM3` the copy functions are overloaded for. -/
inductive Dim where
  | DIM1
  | DIM2
  | DIM3
  deriving DecidableEq, Repr

/-- The copy direction handed to the CUDA runtime. -/
inductive MemcpyKind where
  | cudaMemcpyDeviceToDevice
  | cudaMemcpyDeviceToHost
  deriving DecidableEq, Repr

/-- A `DataSpace<DIM>`: its components. -/
abbrev DataSpace := List Nat

/-- Component access `size[i]`. -/
def DataSpace.comp (d : DataSpace) (i : Nat) : Nat := d.getD i 0

/-- The method `DataSpace::productOfComponents`. -/
def DataSpace.productOfComponents (d : DataSpace) : Nat := d.foldl (fun a b => a * b) 1

/-- Multiplication in `size_t`, as in `size * sizeof (T)`. -/
def mul_size (a b : Nat) : Nat := a * b % 2 ^ 64

/-- The struct `cudaPos`. -/
structure CudaPos where
  x : Nat
  y : Nat
  z : Nat
  deriving DecidableEq, Repr

/-- The struct `cudaExtent`. -/
structure CudaExtent where
  width : Nat
  height : Nat
  depth : Nat
  deriving DecidableEq, Repr

/-- The struct `cudaPitchedPtr`. -/
structure CudaPitchedPtr where
  ptr : Nat
  pitch : Nat
  xsize : Nat
  ysize : Nat
  deriving DecidableEq, Repr

/-- The struct `cudaMemcpy3DParms`, declared without initialiser in the copy
functions: a field is `none` until it is assigned (`nullptr` is `some 0`). -/
structure CudaMemcpy3DParms where
  srcArray : Option Nat
  srcPos : Option CudaPos
  srcPtr : Option CudaPitchedPtr
  dstArray : Option Nat
  dstPos : Option CudaPos
  dstPtr : Option CudaPitchedPtr
  extent : Option CudaExtent
  kind : Option MemcpyKind
  deriving DecidableEq, Repr

/-- The declaration `cudaMemcpy3DParms params;`. -/
def CudaMemcpy3DParms.declared : CudaMemcpy3DParms :=
  { srcArray := none, srcPos := none, srcPtr := none, dstArray := none
    dstPos := none, dstPtr := none, extent := none, kind := none }

/-- What a task body does, in program order: it sets the current size of a
buffer, enqueues an asynchronous transfer on a CUDA stream, synchronises a
stream, or creates a further task.  The `CUDA_CHECK` around a call is taken to
pass. -/
inductive Effect where
  | size_set (buffer : Nat) (size : Nat)
  | cudaMemcpyAsync (dst src : Nat) (count : Nat) (kind : MemcpyKind) (stream : Nat)
  | cudaMemcpy2DAsync (dst dpitch src spitch width height : Nat) (kind : MemcpyKind)
      (stream : Nat)
  | cudaMemcpy3DAsync (params : CudaMemcpy3DParms) (stream : Nat)
  | stream_sync (stream : Nat)
  | create_task (label : String)
  deriving DecidableEq, Repr

/-- The shape of a transfer. -/
inductive TransferShape where
  | linear
  | pitched
  | volumetric
  deriving DecidableEq, Repr

/-- The shape of the transfer an effect enqueues, if it is a transfer. -/
def Effect.shape : Effect → Option TransferShape
  | Effect.cudaMemcpyAsync _ _ _ _ _ => some TransferShape.linear
  | Effect.cudaMemcpy2DAsync _ _ _ _ _ _ _ _ => some TransferShape.pitched
  | Effect.cudaMemcpy3DAsync _ _ => some TransferShape.volumetric
  | _ => none

/-- The stream an asynchronous transfer is enqueued on, if the effect is a transfer. -/
def Effect.enqueued_on : Effect → Option Nat
  | Effect.cudaMemcpyAsync _ _ _ _ stream => some stream
  | Effect.cudaMemcpy2DAsync _ _ _ _ _ _ _ stream => some stream
  | Effect.cudaMemcpy3DAsync _ stream => some stream
  | _ => none

/-- Whether the effect enqueues a transfer. -/
def Effect.is_transfer (e : Effect) : Bool := e.shape.isSome

/-- Whether the effect creates a further task. -/
def Effect.is_create_task : Effect → Bool
  | Effect.create_task _ => true
  | _ => false

/-- Whether every transfer of the trace is followed, later in the trace, by a
synchronisation of the stream it was enqueued on. -/
def synchronized : List Effect → Bool
  | [] => true
  | e :: rest =>
    (match e.enqueued_on with
      | none => true
      | some stream => rest.contains (Effect.stream_sync stream)) && synchronized rest

/-- Whether the body hands its completion over to a task that it creates after
its first transfer. -/
def defers_done : List Effect → Bool
  | [] => false
  | e :: rest => if e.is_transfer then rest.any Effect.is_create_task else defers_done rest

/-! ## Buffer guards -/

/-- The data guard of a buffer (`dst.data()`, `src.data()`) with what its getters return. -/
structure DataGuard where
  pointer : Nat
  basePointer : Nat
  pitch : Nat
  offset : DataSpace
  dataSpace : DataSpace
  cudaPitched : CudaPitchedPtr
  is1D : Bool
  deriving DecidableEq, Repr

/-- The size guard of a buffer (`src.size()`): `get()` and `getCurrentDataSpace()`. -/
structure SizeGuard where
  current : Nat
  currentDataSpace : DataSpace
  deriving DecidableEq, Repr

/-- A read or write guard of a buffer; `buffer` identifies the buffer guarded. -/
structure BufferGuard where
  buffer : Nat
  size : SizeGuard
  data : DataGuard
  is1D : Bool
  deriving DecidableEq, Repr

/-- Which copy function the task body calls. -/
inductive CopyPath where
  | fast_copy
  | copy (dim : Dim)
  deriving DecidableEq, Repr

/-- An argument handed to `Environment<>::task` after the property builder. -/
inductive TaskArgument where
  | write (buffer : Nat)
  | read (buffer : Nat)
  | cuda_stream (stream : Nat)
  deriving DecidableEq, Repr

/-- A task handed to `Environment<>::task`: label, guard arguments and what the
body does once it runs. -/
structure CopyTask where
  label : String
  arguments : List TaskArgument
  body : List Effect
  deriving DecidableEq, Repr

/-! ## `CopyDeviceToDevice.hpp` -/

namespace device2device_detail

/-- The function `device2device_detail::fast_copy`. -/
def fast_copy (sizeofT : Nat) (dst src : Nat) (size : Nat) : List Effect :=
  let cuda_stream := 0
  [Effect.cudaMemcpyAsync dst src (mul_size size sizeofT)
    MemcpyKind.cudaMemcpyDeviceToDevice cuda_stream]

/-- The three overloads of `device2device_detail::copy`, selected by the dimension. -/
def copy (sizeofT : Nat) : Dim → DataGuard → DataGuard → DataSpace → List Effect
  | Dim.DIM1, dst, src, size =>
    let cuda_stream := 0
    [Effect.cudaMemcpyAsync dst.pointer src.pointer (mul_size (size.comp 0) sizeofT)
      MemcpyKind.cudaMemcpyDeviceToDevice cuda_stream]
  | Dim.DIM2, dst, src, size =>
    let cuda_stream := 0
    [Effect.cudaMemcpy2DAsync dst.pointer dst.pitch src.pointer src.pitch
      (mul_size (size.comp 0) sizeofT) (size.comp 1)
      MemcpyKind.cudaMemcpyDeviceToDevice cuda_stream]
  | Dim.DIM3, dst, src, size =>
    let cuda_stream := 0
    let params := CudaMemcpy3DParms.declared
    let params := { params with srcArray := some 0 }
    let params := { params with
      srcPos := some
        { x := mul_size (src.offset.comp 0) sizeofT, y := src.offset.comp 1, z := src.offset.comp 2 } }
    let params := { params with srcPtr := some src.cudaPitched }
    let params := { params with dstArray := some 0 }
    let params := { params with
      dstPos := some
        { x := mul_size (dst.offset.comp 0) sizeofT, y := dst.offset.comp 1, z := dst.offset.comp 2 } }
    let params := { params with dstPtr := some dst.cudaPitched }
    let params := { params with
      extent := some
        { width := mul_size (size.comp 0) sizeofT, height := size.comp 1, depth := size.comp 2 } }
    let params := { params with kind := some MemcpyKind.cudaMemcpyDeviceToDevice }
    [Effect.cudaMemcpy3DAsync params cuda_stream]

end device2device_detail

/-- The branch taken by the body of the device-to-device copy task. -/
def device2device_path (dim : Dim) (dst src : BufferGuard) : CopyPath :=
  if src.data.is1D && dst.data.is1D then CopyPath.fast_copy else CopyPath.copy dim

/-- The body of the task created by `copy( dst, src )` for two device buffers;
`cuda_stream` is the third argument of the lambda. -/
def device2device_body (sizeofT : Nat) (dim : Dim) (dst src : BufferGuard) (_cuda_stream : Nat) :
    List Effect :=
  let current_size := src.size.current
  let devCurrentSize := src.size.currentDataSpace
  Effect.size_set dst.buffer current_size ::
    (match device2device_path dim dst src with
      | CopyPath.fast_copy =>
        device2device_detail.fast_copy sizeofT dst.data.pointer src.data.pointer
          devCurrentSize.productOfComponents
      | CopyPath.copy d => device2device_detail.copy sizeofT d dst.data src.data devCurrentSize)

/-- The function `copy( dst, src )` of `CopyDeviceToDevice.hpp`: the task it hands
to `Environment<>::task`, with `env_stream` for `Environment<>::get().cuda_stream()`. -/
def device2device_copy (sizeofT : Nat) (dim : Dim) (dst src : BufferGuard) (env_stream : Nat) :
    CopyTask :=
  { label := "copyDeviceToDevice"
    arguments :=
      [TaskArgument.write dst.buffer, TaskArgument.read src.buffer,
        TaskArgument.cuda_stream env_stream]
    body := device2device_body sizeofT dim dst src env_stream }

/-! ## `DeviceToHost.hpp` -/

namespace device2host_detail

/-- The function `device2host_detail::fast_copy`. -/
def fast_copy (sizeofT : Nat) (dst src : Nat) (size : Nat) : List Effect :=
  let cuda_stream := 0
  [Effect.cudaMemcpyAsync dst src (mul_size size sizeofT)
    MemcpyKind.cudaMemcpyDeviceToHost cuda_stream]

/-- The three overloads of `device2host_detail::copy`, selected by the dimension. -/
def copy (sizeofT : Nat) : Dim → DataGuard → DataGuard → DataSpace → List Effect
  | Dim.DIM1, dst, src, size =>
    let cuda_stream := 0
    [Effect.cudaMemcpyAsync dst.pointer src.pointer (mul_size (size.comp 0) sizeofT)
      MemcpyKind.cudaMemcpyDeviceToHost cuda_stream]
  | Dim.DIM2, dst, src, size =>
    let cuda_stream := 0
    [Effect.cudaMemcpy2DAsync dst.pointer dst.pitch src.pointer src.pitch
      (mul_size (size.comp 0) sizeofT) (size.comp 1)
      MemcpyKind.cudaMemcpyDeviceToHost cuda_stream]
  | Dim.DIM3, dst, src, size =>
    let cuda_stream := 0
    let hostPtr : CudaPitchedPtr :=
      { ptr := dst.basePointer
        pitch := src.pitch
        xsize := mul_size (src.dataSpace.comp 0) sizeofT
        ysize := src.dataSpace.comp 1 }
    let params := CudaMemcpy3DParms.declared
    let params := { params with srcArray := some 0 }
    let params := { params with
      srcPos := some
        { x := mul_size (src.offset.comp 0) sizeofT, y := src.offset.comp 1, z := src.offset.comp 2 } }
    let params := { params with srcPtr := some src.cudaPitched }
    let params := { params with dstArray := some 0 }
    let params := { params with
      srcPos := some
        { x := mul_size (dst.offset.comp 0) sizeofT, y := dst.offset.comp 1, z := dst.offset.comp 2 } }
    let params := { params with dstPtr := some hostPtr }
    let params := { params with
      extent := some
        { width := mul_size (size.comp 0) sizeofT, height := size.comp 1, depth := size.comp 2 } }
    let params := { params with kind := some MemcpyKind.cudaMemcpyDeviceToHost }
    [Effect.cudaMemcpy3DAsync params cuda_stream]

end device2host_detail

/-- The branch taken by the body of the device-to-host copy task. -/
def device2host_path (dim : Dim) (dst src : BufferGuard) : CopyPath :=
  if src.is1D && dst.is1D then CopyPath.fast_copy else CopyPath.copy dim

/-- The body of the task created by `copy( dst, src )` from a device buffer to a
host buffer; `cuda_stream` is the third argument of the lambda. -/
def device2host_body (sizeofT : Nat) (dim : Dim) (dst src : BufferGuard) (cuda_stream : Nat) :
    List Effect :=
  let devCurrentSize := src.size.currentDataSpace
  Effect.size_set dst.buffer src.size.current ::
    ((match device2host_path dim dst src with
      | CopyPath.fast_copy =>
        device2host_detail.fast_copy sizeofT dst.data.pointer src.data.pointer
          devCurrentSize.productOfComponents
      | CopyPath.copy d => device2host_detail.copy sizeofT d dst.data src.data devCurrentSize)
      ++ [Effect.stream_sync cuda_stream])

/-- The function `copy( dst, src )` of `DeviceToHost.hpp`: the task it hands to
`Environment<>::task`, with `env_stream` for `Environment<>::get().cuda_stream()`. -/
def device2host_copy (sizeofT : Nat) (dim : Dim) (dst src : BufferGuard) (env_stream : Nat) :
    CopyTask :=
  { label := "pmacc::mem::copy(dst: Host, src: Device)"
    arguments :=
      [TaskArgument.write dst.buffer, TaskArgument.read src.buffer,
        TaskArgument.cuda_stream env_stream]
    body := device2host_body sizeofT dim dst src env_stream }

/-! ## Auxiliary definitions for the statements -/

/-- The routing test of `update_queues` for a scheduler with `n` scheduling threads. -/
def to_mpi {G R : Type} (env : Env G R) (n : Nat) (t : TaskID) : Bool :=
  (env.task_properties t).mpi_task && decide (n > 1)

/-- The queue the request hook of thread `i` is bound to by the constructor
when there are `n` scheduling threads. -/
def hook_of (n i : Nat) : QueueName :=
  if i = 0 ∧ n > 1 then QueueName.mpi_queue else QueueName.main_queue

/-- The request hooks of all threads. -/
def Scheduler.hooks {G : Type} (s : Scheduler G) : List (Option QueueName) :=
  s.schedule.map fun t => t.request_hook

/-- The states a scheduler with `n` scheduling threads can be in: it is
constructed over any graph with `n` thread schedules, a thread calls its request
hook, or the surroundings act (tasks are added and flags cleared, workers take the
jobs handed to them, the diagnostic flag is switched), which leaves the two
queues and the hooks as they are. -/
inductive Reachable {G R : Type} (env : Env G R) (n : Nat) : Scheduler G → Prop where
  | construct (graph : G) (schedule : List ThreadSchedule) (uptodate precedence_flag : Bool) :
      schedule.length = n → Reachable env n (Scheduler.new graph schedule uptodate precedence_flag)
  | request (s : Scheduler G) (thread : Nat) (queue : QueueName) :
      Reachable env n s → s.hooks[thread]? = some (some queue) →
      Reachable env n (get_job env s thread queue)
  | surroundings (s s' : Scheduler G) :
      Reachable env n s → s'.main_queue = s.main_queue → s'.mpi_queue = s.mpi_queue →
      s'.hooks = s.hooks → Reachable env n s'

/-- A scheduling graph given as a script of ready sets: `update_graph` returns
the first one and removes it.  Tasks with an odd id carry the `mpi_task` hint. -/
def script_env : Env (List (List TaskID)) Nat :=
  { update_graph := fun g => (g.headD [], g.tail)
    task_properties := fun t =>
      { access_list := [], label := "task", mpi_task := t % 2 == 1 } }

/-- Two threads that have not been handed a job. -/
def two_threads : List ThreadSchedule :=
  [{ jobs := [], request_hook := none }, { jobs := [], request_hook := none }]

/-- A scheduler over two threads whose graph will report tasks 1, 2 and 3 as ready. -/
def sample_scheduler : Scheduler (List (List TaskID)) :=
  Scheduler.new [[1, 2, 3]] two_threads false false

/-- The invariant behind the routing of jobs: the hooks are the ones the
constructor binds, `mpi_queue` holds only jobs that pass the routing test and
`main_queue` only jobs that fail it. -/
def Routed {G R : Type} (env : Env G R) (n : Nat) (s : Scheduler G) : Prop :=
  s.hooks = (List.range n).map (fun i => some (hook_of n i)) ∧
  (∀ job ∈ s.mpi_queue, to_mpi env n job.task = true) ∧
  (∀ job ∈ s.main_queue, to_mpi env n job.task = false)

/-- The transfer shape of the copy overload for a dimension. -/
def Dim.shape : Dim → TransferShape
  | Dim.DIM1 => TransferShape.linear
  | Dim.DIM2 => TransferShape.pitched
  | Dim.DIM3 => TransferShape.volumetric

/-- A policy environment for examples: `sub` is covered when each of its accesses
is listed by `super`, a `ResourceUser` is printed as its number of accesses. -/
def sample_policy : PolicyEnv Nat :=
  { is_superset := fun super sub => sub.access_list.all fun a => super.access_list.contains a
    show_access := fun u => toString u.access_list.length
    functor_backtrace := "in main" }

/-- Properties of a task that reads resource 1. -/
def sample_parent : TaskProperties Nat :=
  { access_list := [{ resource := 1, mode := Mode.Read }], label := "parent" }

/-- Properties of a task that writes resource 2. -/
def sample_child : TaskProperties Nat :=
  { access_list := [{ resource := 2, mode := Mode.Write }], label := "child" }

/-- A data guard for examples. -/
def sample_data (pointer pitch : Nat) (is1D : Bool) : DataGuard :=
  { pointer := pointer
    basePointer := pointer
    pitch := pitch
    offset := [pointer + 1, pointer + 2, pointer + 3]
    dataSpace := [8, 4, 2]
    cudaPitched := { ptr := pointer, pitch := pitch, xsize := 32, ysize := 4 }
    is1D := is1D }

/-- A buffer guard for examples: buffer `id` with 64 current elements. -/
def sample_buffer (id pointer pitch : Nat) (is1D : Bool) : BufferGuard :=
  { buffer := id
    size := { current := 64, currentDataSpace := [8, 4, 2] }
    data := sample_data pointer pitch is1D
    is1D := is1D }

/-! ## Accesses declared by a copy task -/

/-- Modelled from the spec: the access a guard argument of `Environment<>::task`
declares, which is decided by the guard classes and by `Environment`, neither of
them part of the sources at hand.  Section 4.5: a copy task has "Read on source,
Write on destination"; a write guard declares `Write` on its buffer, a read
guard `Read`, and the stream handle declares no access to a buffer. -/
def TaskArgument.buffer_access : TaskArgument → Option (ResourceAccess Nat)
  | TaskArgument.write buffer => some { resource := buffer, mode := Mode.Write }
  | TaskArgument.read buffer => some { resource := buffer, mode := Mode.Read }
  | TaskArgument.cuda_stream _ => none

/-- The accesses to buffers that a task declares through its arguments. -/
def CopyTask.buffer_accesses (task : CopyTask) : List (ResourceAccess Nat) :=
  task.arguments.filterMap TaskArgument.buffer_access

/-- The calls of `Environment<>::task` made by `copy( dst, src )` of
`CopyDeviceToDevice.hpp`: its body is this one call. -/
def device2device_tasks (sizeofT : Nat) (dim : Dim) (dst src : BufferGuard) (env_stream : Nat) :
    List CopyTask :=
  [device2device_copy sizeofT dim dst src env_stream]

/-- The calls of `Environment<>::task` made by `copy( dst, src )` of
`DeviceToHost.hpp`: its body is this one call. -/
def device2host_tasks (sizeofT : Nat) (dim : Dim) (dst src : BufferGuard) (env_stream : Nat) :
    List CopyTask :=
  [device2host_copy sizeofT dim dst src env_stream]

/-! ## `MPISend.hpp` -/

/-- The buffers of an `Exchange`. -/
inductive ExchangeBuffer where
  | DeviceBuffer
  | DeviceDoubleBuffer
  | HostBuffer
  deriving DecidableEq, Repr

/-- What `TaskMPISend::run` reads from its `Exchange`: `hasDeviceDoubleBuffer()`,
`getExchangeType()`, `getCommunicationTag()`, and pointer and current size of the
host buffer. -/
structure Exchange where
  hasDeviceDoubleBuffer : Bool
  exchangeType : Nat
  communicationTag : Nat
  hostPointer : Nat
  hostCurrentSize : Nat
  deriving DecidableEq, Repr

/-- The steps of `TaskMPISend::run`, in program order.  The two `create` calls
of the copy tasks take the source first: the device-to-host copy is called with
a device buffer first and the host buffer second. -/
inductive SendStep where
  | TaskCopyDeviceToDevice_create (src dst : ExchangeBuffer)
  | TaskCopyDeviceToHost_create (src dst : ExchangeBuffer)
  | startSend (exchangeType pointer bytes tag : Nat)
  | TaskMPIWait_create (request : Nat)
  deriving DecidableEq, Repr

/-- Whether the step creates a copy task. -/
def SendStep.is_copy : SendStep → Bool
  | SendStep.TaskCopyDeviceToDevice_create _ _ => true
  | SendStep.TaskCopyDeviceToHost_create _ _ => true
  | _ => false

/-- Whether the step is the call of `startSend`. -/
def SendStep.is_startSend : SendStep → Bool
  | SendStep.startSend _ _ _ _ => true
  | _ => false

/-- Whether the step creates the completion-wait task. -/
def SendStep.is_wait : SendStep → Bool
  | SendStep.TaskMPIWait_create _ => true
  | _ => false

/-- The method `TaskMPISend::run`.  `startSend` gives the request handle the
communicator returns for a call (exchange type, pointer, bytes, tag) and
`sizeofTYPE` is `sizeof (TYPE)`. -/
def TaskMPISend.run (sizeofTYPE : Nat) (startSend : Nat → Nat → Nat → Nat → Nat)
    (exchange : Exchange) : List SendStep :=
  let copies :=
    if exchange.hasDeviceDoubleBuffer then
      [SendStep.TaskCopyDeviceToDevice_create ExchangeBuffer.DeviceBuffer
          ExchangeBuffer.DeviceDoubleBuffer,
        SendStep.TaskCopyDeviceToHost_create ExchangeBuffer.DeviceDoubleBuffer
          ExchangeBuffer.HostBuffer]
    else
      [SendStep.TaskCopyDeviceToHost_create ExchangeBuffer.DeviceBuffer
          ExchangeBuffer.HostBuffer]
  let bytes := mul_size exchange.hostCurrentSize sizeofTYPE
  let request :=
    startSend exchange.exchangeType exchange.hostPointer bytes exchange.communicationTag
  copies
    ++ [SendStep.startSend exchange.exchangeType exchange.hostPointer bytes
          exchange.communicationTag]
    ++ [SendStep.TaskMPIWait_create request]

/-- A communicator for examples: the request handle is the tag plus 100. -/
def sample_startSend : Nat → Nat → Nat → Nat → Nat :=
  fun _ _ _ tag => tag + 100

/-- An exchange without a device double buffer. -/
def single_exchange : Exchange :=
  { hasDeviceDoubleBuffer := false, exchangeType := 3, communicationTag := 7
    hostPointer := 4096, hostCurrentSize := 10 }

/-- An exchange with a device double buffer. -/
def double_exchange : Exchange :=
  { hasDeviceDoubleBuffer := true, exchangeType := 3, communicationTag := 7
    hostPointer := 4096, hostCurrentSize := 10 }

/-! ## What the diagnostic export may not change -/

/-- Two scheduler states agree on everything but the diagnostic export: on the
graph, the threads with their jobs and hooks, both flags and both queues. -/
def same_scheduling {G : Type} (s t : Scheduler G) : Prop :=
  s.graph = t.graph ∧ s.schedule = t.schedule ∧ s.uptodate = t.uptodate ∧
  s.precedence_flag = t.precedence_flag ∧ s.main_queue = t.main_queue ∧
  s.mpi_queue = t.mpi_queue ∧ s.graph_updates = t.graph_updates

end pmacc

namespace picongpu

/-! ## `fields/MaxwellSolver/Lehe/Derivative.hpp`, in exact arithmetic -/

/-- A grid offset, a `pmacc::DataSpace< simDim >` with its three components. -/
abbrev GridOffset := Fin 3 → Int

/-- A default-constructed offset (all components zero) whose component `direction`
is then set to `value`, as in `upperNeighbor[ direction ] = 1`. -/
def along (direction : Fin 3) (value : Int) : GridOffset :=
  fun i => if i = direction then value else 0

/-- A data box placed at a cell of a field: `data( offset )` is the value of
the field at that offset from the cell.  Values are rational: the functors are
studied in exact arithmetic. -/
abbrev DataBox := GridOffset → ℚ

/-- The method `data.shift( offset )`: the data box placed `offset` further. -/
def DataBox.shift (data : DataBox) (offset : GridOffset) : DataBox :=
  fun o => data (offset + o)

/-- Modelled from the spec: the functor made by
`differentiation::makeDerivativeFunctor< differentiation::Forward, T_direction >`,
which is declared in `ForwardDerivative.hpp` and not part of the sources at hand.
It is the forward difference `(data(+1 along the direction) - data(0))` over the
step of the direction. -/
def forwardDerivative (step : Fin 3 → ℚ) (direction : Fin 3) (data : DataBox) : ℚ :=
  (data (along direction 1) - data (along direction 0)) / step direction

/-- The offsets `forwardDerivative` reads. -/
def forwardDerivative_reads (direction : Fin 3) : List GridOffset :=
  [along direction 1, along direction 0]

/-- The weight `0.125 * stepRatio * stepRatio` with `stepRatio = step[dir0] / step[dir]`. -/
def betaDir (step : Fin 3 → ℚ) (dir0 dir : Fin 3) : ℚ :=
  (1 / 8) * (step dir0 / step dir) * (step dir0 / step dir)

/-- The members of `DerivativeFunctor< T_direction, T_direction >`. -/
structure CherenkovFreeFunctor where
  alpha : ℚ
  delta : ℚ
  deriving DecidableEq

/-- The constructor of `DerivativeFunctor< T_direction, T_direction >`.  The value
`0.25 * ( 1.0 - coeff * coeff )` of `delta` involves a sine and is given as a
parameter; `cellSize` holds the same three values as `step` in `operator()`. -/
def CherenkovFreeFunctor.new (cellSize : Fin 3 → ℚ) (delta : ℚ) (T_direction : Fin 3) :
    CherenkovFreeFunctor :=
  let dir0 := T_direction
  let dir1 := dir0 + 1
  let dir2 := dir0 + 2
  let betaDir1 := betaDir cellSize dir0 dir1
  let betaDir2 := betaDir cellSize dir0 dir2
  { delta := delta
    alpha := 1 - 2 * betaDir1 - 2 * betaDir2 - 3 * delta }

/-- The `operator()` of `DerivativeFunctor< T_direction, T_direction >`. -/
def CherenkovFreeFunctor.apply (f : CherenkovFreeFunctor) (step : Fin 3 → ℚ)
    (T_direction : Fin 3) (data : DataBox) : ℚ :=
  let dir0 := T_direction
  let dir1 := dir0 + 1
  let dir2 := dir0 + 2
  let betaDir1 := betaDir step dir0 dir1
  let betaDir2 := betaDir step dir0 dir2
  let secondUpperIndexDir0 := along dir0 2
  let lowerIndexDir0 := along dir0 (-1)
  let upperNeighborDir1 := along dir1 1
  let upperNeighborDir2 := along dir2 1
  f.alpha * forwardDerivative step T_direction data +
    betaDir1 * forwardDerivative step T_direction (data.shift upperNeighborDir1) +
    betaDir1 * forwardDerivative step T_direction (data.shift (-upperNeighborDir1)) +
    betaDir2 * forwardDerivative step T_direction (data.shift upperNeighborDir2) +
    betaDir2 * forwardDerivative step T_direction (data.shift (-upperNeighborDir2)) +
    f.delta * (data secondUpperIndexDir0 - data lowerIndexDir0) / step T_direction

/-- The offsets `operator()` of `DerivativeFunctor< T_direction, T_direction >` reads. -/
def CherenkovFreeFunctor.reads (T_direction : Fin 3) : List GridOffset :=
  let dir0 := T_direction
  let dir1 := dir0 + 1
  let dir2 := dir0 + 2
  forwardDerivative_reads T_direction
    ++ (forwardDerivative_reads T_direction).map (fun o => along dir1 1 + o)
    ++ (forwardDerivative_reads T_direction).map (fun o => -along dir1 1 + o)
    ++ (forwardDerivative_reads T_direction).map (fun o => along dir2 1 + o)
    ++ (forwardDerivative_reads T_direction).map (fun o => -along dir2 1 + o)
    ++ [along dir0 2, along dir0 (-1)]

/-- The constant `beta` of the functor off the Cherenkov-free direction. -/
def GeneralFunctor.beta : ℚ := 1 / 8

/-- The constant `alpha` of the functor off the Cherenkov-free direction. -/
def GeneralFunctor.alpha : ℚ := 1 - 2 * GeneralFunctor.beta

/-- The `operator()` of the primary template
`DerivativeFunctor< T_cherenkovFreeDirection, T_direction >`. -/
def GeneralFunctor.apply (step : Fin 3 → ℚ) (T_cherenkovFreeDirection T_direction : Fin 3)
    (data : DataBox) : ℚ :=
  let beta := GeneralFunctor.beta
  let alpha := GeneralFunctor.alpha
  let upperNeighbor := along T_cherenkovFreeDirection 1
  alpha * forwardDerivative step T_direction data +
    beta * forwardDerivative step T_direction (data.shift upperNeighbor) +
    beta * forwardDerivative step T_direction (data.shift (-upperNeighbor))

/-- The offsets `operator()` of the primary template reads. -/
def GeneralFunctor.reads (T_cherenkovFreeDirection T_direction : Fin 3) : List GridOffset :=
  forwardDerivative_reads T_direction
    ++ (forwardDerivative_reads T_direction).map (fun o => along T_cherenkovFreeDirection 1 + o)
    ++ (forwardDerivative_reads T_direction).map (fun o => -along T_cherenkovFreeDirection 1 + o)

/-- The functor the trait selects for a Cherenkov-free direction and a derivative
direction: the specialisation when the two are equal, the primary template (whose
static assertion asks for different directions) otherwise. -/
def DerivativeFunctor (step : Fin 3 → ℚ) (delta : ℚ)
    (T_cherenkovFreeDirection T_direction : Fin 3) (data : DataBox) : ℚ :=
  if T_cherenkovFreeDirection = T_direction then
    (CherenkovFreeFunctor.new step delta T_direction).apply step T_direction data
  else
    GeneralFunctor.apply step T_cherenkovFreeDirection T_direction data

/-- The offsets the selected functor reads. -/
def DerivativeFunctor.reads (T_cherenkovFreeDirection T_direction : Fin 3) : List GridOffset :=
  if T_cherenkovFreeDirection = T_direction then CherenkovFreeFunctor.reads T_direction
  else GeneralFunctor.reads T_cherenkovFreeDirection T_direction

/-- The member `GetMargin< lehe::Derivative >::LowerMargin`, `make_Int< simDim, 1 >`. -/
def GetMargin.LowerMargin : GridOffset := fun _ => 1

/-- The member `GetMargin< lehe::Derivative >::UpperMargin`, `make_Int< simDim, 2 >`. -/
def GetMargin.UpperMargin : GridOffset := fun _ => 2

/-- A field that is affine in the grid coordinates: `value` at the cell of the
data box and `increment i` more per cell along direction `i`. -/
def affine_field (value : ℚ) (increment : Fin 3 → ℚ) : DataBox :=
  fun o => value + increment 0 * (o 0 : ℚ) + increment 1 * (o 1 : ℚ) + increment 2 * (o 2 : ℚ)

/-! ## `plugins/Checkpoint.hpp` -/

/-- State of the plugin `Checkpoint`.  `ioBackends` lists the keys of the
`std::map` in its iteration order, a backend being identified with its key;
`loaded` records the calls of `load( )`, by backend. -/
structure Checkpoint where
  activeBackends : String
  checkpointBackendName : String
  checkpointFilename : String
  restartBackendName : String
  restartFilename : String
  restartChunkSize : Nat
  ioBackends : List String
  loaded : List String
  deriving DecidableEq, Repr

/-- The loop of the constructor that builds `activeBackends`. -/
def join_backends : List String → Nat → String → String
  | [], _, activeBackends => activeBackends
  | backend :: rest, backendCount, activeBackends =>
    let activeBackends := if backendCount ≥ 1 then activeBackends ++ ", " else activeBackends
    join_backends rest (backendCount + 1) (activeBackends ++ backend)

/-- The constructor `Checkpoint( )` for a build with the given `ENABLE_ADIOS` and
`ENABLE_HDF5`. -/
def Checkpoint.new (ENABLE_ADIOS ENABLE_HDF5 : Bool) : Checkpoint :=
  let ioBackends : List String :=
    (if ENABLE_ADIOS then ["adios"] else []) ++ (if ENABLE_HDF5 then ["hdf5"] else [])
  let first := if !ioBackends.isEmpty then ioBackends.headD "" else ""
  { activeBackends := join_backends ioBackends 0 ""
    checkpointBackendName := first
    checkpointFilename := "checkpoint"
    restartBackendName := first
    restartFilename := ""
    restartChunkSize := 0
    ioBackends := ioBackends
    loaded := [] }

/-- The text of the `std::runtime_error` thrown by `pluginLoad`. -/
def not_found (backendName activeBackends : String) : String :=
  "IO-backend " ++ backendName ++ " not found, possible backends " ++ activeBackends

/-- The loop `for( auto & backend : ioBackends ) backend.second->load( );`, each
call of `load( )` taken to return. -/
def load_all (c : Checkpoint) : Checkpoint :=
  c.ioBackends.foldl (fun st backend => { st with loaded := st.loaded ++ [backend] }) c

/-- The method `Checkpoint::pluginLoad`: the state it leaves and the message of
the exception it throws, if it throws. -/
def Checkpoint.pluginLoad (c : Checkpoint) : Checkpoint × Option String :=
  let cBackend := c.ioBackends.contains c.checkpointBackendName
  if !c.ioBackends.isEmpty && !cBackend then
    (c, some (not_found c.checkpointBackendName c.activeBackends))
  else
    let rBackend := c.ioBackends.contains c.restartBackendName
    if !c.ioBackends.isEmpty && !rBackend then
      (c, some (not_found c.restartBackendName c.activeBackends))
    else
      let c := if c.restartFilename == "" then { c with restartFilename := c.checkpointFilename }
        else c
      (load_all c, none)

end picongpu

namespace pmacc

/-! ## Lemmas on the queue refill -/

theorem push_ready_schedule {G R : Type} (env : Env G R) (s : Scheduler G) (t : TaskID) :
    (push_ready env s t).schedule = s.schedule := by
  by_cases h : ((env.task_properties t).mpi_task && decide (s.schedule.length > 1)) = true
  · simp [push_ready, h]
  · simp [push_ready, h]

theorem foldl_push_ready_schedule {G R : Type} (env : Env G R) (ready : List TaskID) :
    ∀ s : Scheduler G, (ready.foldl (push_ready env) s).schedule = s.schedule := by
  induction ready with
  | nil => intro s; rfl
  | cons t ts ih =>
    intro s
    rw [List.foldl_cons, ih, push_ready_schedule]

theorem foldl_push_ready_mpi {G R : Type} (env : Env G R) (ready : List TaskID) :
    ∀ s : Scheduler G, (ready.foldl (push_ready env) s).mpi_queue
      = s.mpi_queue ++ (ready.filter (to_mpi env s.schedule.length)).map Job.mk := by
  induction ready with
  | nil => intro s; simp
  | cons t ts ih =>
    intro s
    rw [List.foldl_cons, ih, push_ready_schedule]
    by_cases h : to_mpi env s.schedule.length t = true
    · have h' : ((env.task_properties t).mpi_task && decide (s.schedule.length > 1)) = true := h
      simp [push_ready, h', List.filter_cons, h]
    · have h' : ¬ ((env.task_properties t).mpi_task && decide (s.schedule.length > 1)) = true := h
      simp [push_ready, h', List.filter_cons, h]

theorem foldl_push_ready_main {G R : Type} (env : Env G R) (ready : List TaskID) :
    ∀ s : Scheduler G, (ready.foldl (push_ready env) s).main_queue
      = s.main_queue
        ++ (ready.filter (fun t => !to_mpi env s.schedule.length t)).map Job.mk := by
  induction ready with
  | nil => intro s; simp
  | cons t ts ih =>
    intro s
    rw [List.foldl_cons, ih, push_ready_schedule]
    by_cases h : to_mpi env s.schedule.length t = true
    · have h' : ((env.task_properties t).mpi_task && decide (s.schedule.length > 1)) = true := h
      simp [push_ready, h', List.filter_cons, h]
    · have h' : ¬ ((env.task_properties t).mpi_task && decide (s.schedule.length > 1)) = true := h
      simp [push_ready, h', List.filter_cons, h]

theorem foldl_push_ready_rest {G R : Type} (env : Env G R) (ready : List TaskID) :
    ∀ s : Scheduler G,
      (ready.foldl (push_ready env) s).uptodate = s.uptodate ∧
      (ready.foldl (push_ready env) s).precedence_flag = s.precedence_flag ∧
      (ready.foldl (push_ready env) s).graph = s.graph ∧
      (ready.foldl (push_ready env) s).graph_updates = s.graph_updates ∧
      (ready.foldl (push_ready env) s).write_graph = s.write_graph ∧
      (ready.foldl (push_ready env) s).step = s.step ∧
      (ready.foldl (push_ready env) s).dot_files = s.dot_files := by
  induction ready with
  | nil => intro s; simp
  | cons t ts ih =>
    intro s
    rw [List.foldl_cons]
    have h := ih (push_ready env s t)
    have e : (push_ready env s t).uptodate = s.uptodate ∧
        (push_ready env s t).precedence_flag = s.precedence_flag ∧
        (push_ready env s t).graph = s.graph ∧
        (push_ready env s t).graph_updates = s.graph_updates ∧
        (push_ready env s t).write_graph = s.write_graph ∧
        (push_ready env s t).step = s.step ∧
        (push_ready env s t).dot_files = s.dot_files := by
      by_cases h : ((env.task_properties t).mpi_task && decide (s.schedule.length > 1)) = true
      · simp [push_ready, h]
      · simp [push_ready, h]
    obtain ⟨h1, h2, h3, h4, h5, h6, h7⟩ := h
    obtain ⟨e1, e2, e3, e4, e5, e6, e7⟩ := e
    exact ⟨h1.trans e1, h2.trans e2, h3.trans e3, h4.trans e4, h5.trans e5, h6.trans e6,
      h7.trans e7⟩

theorem export_graph_fields {G : Type} (s : Scheduler G) :
    (export_graph s).main_queue = s.main_queue ∧ (export_graph s).mpi_queue = s.mpi_queue ∧
    (export_graph s).schedule = s.schedule ∧ (export_graph s).uptodate = s.uptodate ∧
    (export_graph s).precedence_flag = s.precedence_flag ∧ (export_graph s).graph = s.graph ∧
    (export_graph s).graph_updates = s.graph_updates := by
  unfold export_graph
  split <;> simp

theorem update_queues_schedule {G R : Type} (env : Env G R) (s : Scheduler G) :
    (update_queues env s).schedule = s.schedule := by
  unfold update_queues
  simp only [(export_graph_fields _).2.2.1]
  split
  · rw [foldl_push_ready_schedule]
  · rfl

theorem update_queues_current {G R : Type} (env : Env G R) (s : Scheduler G)
    (h1 : s.uptodate = true) (h2 : s.precedence_flag = true) :
    (update_queues env s).main_queue = s.main_queue ∧
    (update_queues env s).mpi_queue = s.mpi_queue ∧
    (update_queues env s).graph = s.graph ∧
    (update_queues env s).graph_updates = s.graph_updates := by
  unfold update_queues
  simp [test_and_set, h1, h2, export_graph_fields]

theorem update_queues_stale {G R : Type} (env : Env G R) (s : Scheduler G)
    (h : s.uptodate = false ∨ s.precedence_flag = false) :
    (update_queues env s).mpi_queue
      = s.mpi_queue
        ++ ((env.update_graph s.graph).1.filter (to_mpi env s.schedule.length)).map Job.mk ∧
    (update_queues env s).main_queue
      = s.main_queue
        ++ ((env.update_graph s.graph).1.filter
            (fun t => !to_mpi env s.schedule.length t)).map Job.mk ∧
    (update_queues env s).graph = (env.update_graph s.graph).2 ∧
    (update_queues env s).graph_updates = s.graph_updates + 1 := by
  have hc : (!(test_and_set s.uptodate).1 || !(test_and_set s.precedence_flag).1) = true := by
    rcases h with h | h <;> simp [test_and_set, h]
  unfold update_queues
  simp only [hc, if_true, export_graph_fields]
  refine ⟨?_, ?_, ?_, ?_⟩
  · rw [foldl_push_ready_mpi]
  · rw [foldl_push_ready_main]
  · rw [(foldl_push_ready_rest env _ _).2.2.1]
  · rw [(foldl_push_ready_rest env _ _).2.2.2.1]

theorem update_queues_flags {G R : Type} (env : Env G R) (s : Scheduler G) :
    (update_queues env s).uptodate = true ∧ (update_queues env s).precedence_flag = true := by
  unfold update_queues
  simp only [export_graph_fields]
  split
  · rw [(foldl_push_ready_rest env _ _).1, (foldl_push_ready_rest env _ _).2.1]
    simp [test_and_set]
  · simp [test_and_set]

theorem update_queues_mem_mpi {G R : Type} (env : Env G R) (s : Scheduler G) (job : Job)
    (h : job ∈ (update_queues env s).mpi_queue) :
    job ∈ s.mpi_queue ∨ to_mpi env s.schedule.length job.task = true := by
  by_cases hs : s.uptodate = false ∨ s.precedence_flag = false
  · rw [(update_queues_stale env s hs).1, List.mem_append] at h
    rcases h with h | h
    · exact Or.inl h
    · obtain ⟨t, ht, rfl⟩ := List.mem_map.1 h
      exact Or.inr (List.mem_filter.1 ht).2
  · have h1 : s.uptodate = true := by
      cases hu : s.uptodate
      · exact absurd (Or.inl hu) hs
      · rfl
    have h2 : s.precedence_flag = true := by
      cases hp : s.precedence_flag
      · exact absurd (Or.inr hp) hs
      · rfl
    rw [(update_queues_current env s h1 h2).2.1] at h
    exact Or.inl h

theorem update_queues_mem_main {G R : Type} (env : Env G R) (s : Scheduler G) (job : Job)
    (h : job ∈ (update_queues env s).main_queue) :
    job ∈ s.main_queue ∨ to_mpi env s.schedule.length job.task = false := by
  by_cases hs : s.uptodate = false ∨ s.precedence_flag = false
  · rw [(update_queues_stale env s hs).2.1, List.mem_append] at h
    rcases h with h | h
    · exact Or.inl h
    · obtain ⟨t, ht, rfl⟩ := List.mem_map.1 h
      have := (List.mem_filter.1 ht).2
      exact Or.inr (by simpa using this)
  · have h1 : s.uptodate = true := by
      cases hu : s.uptodate
      · exact absurd (Or.inl hu) hs
      · rfl
    have h2 : s.precedence_flag = true := by
      cases hp : s.precedence_flag
      · exact absurd (Or.inr hp) hs
      · rfl
    rw [(update_queues_current env s h1 h2).1] at h
    exact Or.inl h

/-! ## Lemmas on `get_job` and the constructor -/

theorem push_thread_getElem? (job : Job) :
    ∀ (l : List ThreadSchedule) (i k : Nat),
      (push_thread job i l)[k]? = if k = i then l[k]?.map (fun t => t.push job) else l[k]? := by
  intro l
  induction l with
  | nil => intro i k; simp [push_thread]
  | cons t ts ih =>
    intro i k
    cases i with
    | zero =>
      cases k with
      | zero => simp [push_thread]
      | succ k => simp [push_thread]
    | succ i =>
      cases k with
      | zero => simp [push_thread]
      | succ k => simp [push_thread, ih]

theorem push_thread_hooks (job : Job) :
    ∀ (l : List ThreadSchedule) (i : Nat),
      (push_thread job i l).map (fun t => t.request_hook) = l.map (fun t => t.request_hook) := by
  intro l
  induction l with
  | nil => intro i; simp [push_thread]
  | cons t ts ih =>
    intro i
    cases i with
    | zero => simp [push_thread, ThreadSchedule.push]
    | succ i => simp [push_thread, ih]

theorem set_queue_queue {G : Type} (s : Scheduler G) (q q' : QueueName) (js : List Job) :
    (s.set_queue q js).queue q' = if q' = q then js else s.queue q' := by
  cases q <;> cases q' <;> simp [Scheduler.set_queue, Scheduler.queue]

theorem set_queue_schedule {G : Type} (s : Scheduler G) (q : QueueName) (js : List Job) :
    (s.set_queue q js).schedule = s.schedule := by
  cases q <;> rfl

theorem refill_if_empty_schedule {G R : Type} (env : Env G R) (s : Scheduler G)
    (queue : QueueName) : (refill_if_empty env s queue).schedule = s.schedule := by
  unfold refill_if_empty
  split
  · exact update_queues_schedule env s
  · rfl

theorem get_job_empty {G R : Type} (env : Env G R) (s : Scheduler G) (thread : Nat)
    (queue : QueueName) (h : (refill_if_empty env s queue).queue queue = []) :
    get_job env s thread queue = refill_if_empty env s queue := by
  unfold get_job
  simp only [h]

theorem get_job_cons {G R : Type} (env : Env G R) (s : Scheduler G) (thread : Nat)
    (queue : QueueName) (job : Job) (rest : List Job)
    (h : (refill_if_empty env s queue).queue queue = job :: rest) :
    get_job env s thread queue
      = { (refill_if_empty env s queue).set_queue queue rest with
          schedule := push_thread job thread (refill_if_empty env s queue).schedule } := by
  unfold get_job
  simp only [h]

theorem bind_hooks_getElem? (size : Nat) :
    ∀ (l : List ThreadSchedule) (k i : Nat),
      (bind_hooks size k l)[i]?
        = l[i]?.map (fun t => t.set_request_hook (hook_of size (k + i))) := by
  intro l
  induction l with
  | nil => intro k i; simp [bind_hooks]
  | cons t ts ih =>
    intro k i
    cases i with
    | zero =>
      by_cases hk : k = 0 <;> by_cases hs : size > 1 <;> simp [bind_hooks, hook_of, hk, hs]
    | succ i =>
      simp only [bind_hooks, List.getElem?_cons_succ, ih]
      have : k + 1 + i = k + (i + 1) := by omega
      rw [this]

theorem bind_hooks_length (size : Nat) :
    ∀ (l : List ThreadSchedule) (k : Nat), (bind_hooks size k l).length = l.length := by
  intro l
  induction l with
  | nil => intro k; rfl
  | cons t ts ih => intro k; simp [bind_hooks, ih]

/-! ## Claims on the scheduler -/

/-- C1: a refill that rebuilds the graph (one of the two flags was clear) appends
to `mpi_queue` the jobs of the ready tasks that carry the `mpi_task` hint while
more than one scheduling thread exists, and to `main_queue` the jobs of all other
ready tasks, both in the order of the ready set and behind the jobs already
queued; every ready task gets as many jobs as the ready set lists it (one when it
is listed once), all of them in the queue its routing test selects. -/
theorem update_queues_routes_ready {G R : Type} (env : Env G R) (s : Scheduler G)
    (h : s.uptodate = false ∨ s.precedence_flag = false) :
    ∃ new_mpi new_main : List Job,
      (update_queues env s).mpi_queue = s.mpi_queue ++ new_mpi ∧
      (update_queues env s).main_queue = s.main_queue ++ new_main ∧
      new_mpi = ((env.update_graph s.graph).1.filter
        (fun t => (env.task_properties t).mpi_task && decide (s.schedule.length > 1))).map Job.mk ∧
      new_main = ((env.update_graph s.graph).1.filter
        (fun t => !((env.task_properties t).mpi_task && decide (s.schedule.length > 1)))).map
          Job.mk ∧
      ∀ t : TaskID,
        new_mpi.count (Job.mk t)
          = (if (env.task_properties t).mpi_task = true ∧ s.schedule.length > 1
              then (env.update_graph s.graph).1.count t else 0) ∧
        new_main.count (Job.mk t)
          = (if (env.task_properties t).mpi_task = true ∧ s.schedule.length > 1
              then 0 else (env.update_graph s.graph).1.count t) := by
  have inj : Function.Injective Job.mk := fun a b hab => by injection hab
  refine ⟨_, _, (update_queues_stale env s h).1, (update_queues_stale env s h).2.1, rfl, rfl, ?_⟩
  intro t
  rw [List.count_map_of_injective _ _ inj, List.count_map_of_injective _ _ inj]
  by_cases ht : (env.task_properties t).mpi_task = true ∧ s.schedule.length > 1
  · have hb : to_mpi env s.schedule.length t = true := by simp [to_mpi, ht.1, ht.2]
    refine ⟨?_, ?_⟩
    · rw [if_pos ht]
      exact List.count_filter hb
    · rw [if_pos ht]
      apply List.count_eq_zero.2
      intro hm
      have := (List.mem_filter.1 hm).2
      rw [hb] at this
      exact absurd this (by decide)
  · have hb : to_mpi env s.schedule.length t = false := by
      unfold to_mpi
      by_cases h1 : (env.task_properties t).mpi_task = true
      · have : ¬ s.schedule.length > 1 := fun h2 => ht ⟨h1, h2⟩
        simp [this]
      · simp [h1]
    refine ⟨?_, ?_⟩
    · rw [if_neg ht]
      apply List.count_eq_zero.2
      intro hm
      have := (List.mem_filter.1 hm).2
      rw [hb] at this
      exact absurd this (by decide)
    · rw [if_neg ht]
      exact List.count_filter (by rw [hb]; rfl)

/-- Witness of C1: the sample scheduler has both flags clear. -/
theorem update_queues_routes_ready_witness :
    (sample_scheduler.uptodate = false ∨ sample_scheduler.precedence_flag = false) ∧
    (update_queues script_env sample_scheduler).mpi_queue = [Job.mk 1, Job.mk 3] ∧
    (update_queues script_env sample_scheduler).main_queue = [Job.mk 2] := by
  obtain ⟨new_mpi, new_main, h1, h2, h3, h4, _⟩ :=
    update_queues_routes_ready script_env sample_scheduler (Or.inl rfl)
  refine ⟨Or.inl rfl, ?_, ?_⟩
  · rw [h1, h3]; decide
  · rw [h2, h4]; decide

/-- C5: one call of `get_job` hands the thread at most one job.  The refill runs
only when the requested queue is empty on entry.  If the queue is non-empty after
that, its front job is removed, the rest keeps its order, the other queue is
left alone, and the job is appended to the jobs of the calling thread while all
other threads keep theirs; if it is still empty the call returns the refilled
state and no thread is handed anything. -/
theorem get_job_hands_one {G R : Type} (env : Env G R) (s : Scheduler G) (thread : Nat)
    (queue : QueueName) :
    (s.queue queue ≠ [] → refill_if_empty env s queue = s) ∧
    (s.queue queue = [] → refill_if_empty env s queue = update_queues env s) ∧
    (∀ (job : Job) (rest : List Job),
      (refill_if_empty env s queue).queue queue = job :: rest →
        (get_job env s thread queue).queue queue = rest ∧
        (∀ other : QueueName, other ≠ queue →
          (get_job env s thread queue).queue other = (refill_if_empty env s queue).queue other) ∧
        (get_job env s thread queue).schedule[thread]?
          = s.schedule[thread]?.map (fun t => { t with jobs := t.jobs ++ [job] }) ∧
        (∀ k : Nat, k ≠ thread →
          (get_job env s thread queue).schedule[k]? = s.schedule[k]?)) ∧
    ((refill_if_empty env s queue).queue queue = [] →
      get_job env s thread queue = refill_if_empty env s queue ∧
      (get_job env s thread queue).schedule = s.schedule) := by
  refine ⟨?_, ?_, ?_, ?_⟩
  · intro h
    have : (s.queue queue).isEmpty = false := by
      cases hq : s.queue queue with
      | nil => exact absurd hq h
      | cons a l => rfl
    simp [refill_if_empty, this]
  · intro h
    simp [refill_if_empty, h]
  · intro job rest h
    rw [get_job_cons env s thread queue job rest h]
    refine ⟨?_, ?_, ?_, ?_⟩
    · have := set_queue_queue (refill_if_empty env s queue) queue queue rest
      simpa [Scheduler.queue] using this
    · intro other ho
      have := set_queue_queue (refill_if_empty env s queue) queue other rest
      rw [if_neg ho] at this
      rw [← this]
      cases other <;> rfl
    · show (push_thread job thread (refill_if_empty env s queue).schedule)[thread]? = _
      rw [push_thread_getElem?, refill_if_empty_schedule]
      simp [ThreadSchedule.push]
    · intro k hk
      show (push_thread job thread (refill_if_empty env s queue).schedule)[k]? = _
      rw [push_thread_getElem?, refill_if_empty_schedule, if_neg hk]
  · intro h
    rw [get_job_empty env s thread queue h]
    exact ⟨rfl, refill_if_empty_schedule env s queue⟩

/-- Witness of C5: thread 0 of the sample scheduler asks `mpi_queue`, which is
refilled with the jobs of tasks 1 and 3; the thread gets the job of task 1. -/
theorem get_job_hands_one_witness :
    (refill_if_empty script_env sample_scheduler QueueName.mpi_queue).queue QueueName.mpi_queue
      = Job.mk 1 :: [Job.mk 3] ∧
    (get_job script_env sample_scheduler 0 QueueName.mpi_queue).queue QueueName.mpi_queue
      = [Job.mk 3] ∧
    (get_job script_env sample_scheduler 0 QueueName.mpi_queue).schedule[0]?
      = sample_scheduler.schedule[0]?.map (fun t => { t with jobs := t.jobs ++ [Job.mk 1] }) := by
  have hq : (refill_if_empty script_env sample_scheduler QueueName.mpi_queue).queue
      QueueName.mpi_queue = Job.mk 1 :: [Job.mk 3] := by decide
  have h := (get_job_hands_one script_env sample_scheduler 0 QueueName.mpi_queue).2.2.1
    (Job.mk 1) [Job.mk 3] hq
  exact ⟨hq, h.1, h.2.2.1⟩

/-- C6: `update_queues` calls `update_graph` exactly when one of the two flags is
clear on entry (the call counter grows by one then and stays as it is otherwise),
both flags are set on exit, a refill that finds both flags set leaves both
queues and the graph as they are, and so does a second refill that directly
follows a first. -/
theorem update_queues_freshness {G R : Type} (env : Env G R) (s : Scheduler G) :
    ((update_queues env s).graph_updates
      = s.graph_updates + (if s.uptodate = false ∨ s.precedence_flag = false then 1 else 0)) ∧
    (update_queues env s).uptodate = true ∧
    (update_queues env s).precedence_flag = true ∧
    (s.uptodate = true ∧ s.precedence_flag = true →
      (update_queues env s).main_queue = s.main_queue ∧
      (update_queues env s).mpi_queue = s.mpi_queue ∧
      (update_queues env s).graph = s.graph) ∧
    (update_queues env (update_queues env s)).main_queue = (update_queues env s).main_queue ∧
    (update_queues env (update_queues env s)).mpi_queue = (update_queues env s).mpi_queue ∧
    (update_queues env (update_queues env s)).graph_updates
      = (update_queues env s).graph_updates := by
  have hf := update_queues_flags env s
  have h2 := update_queues_current env (update_queues env s) hf.1 hf.2
  refine ⟨?_, hf.1, hf.2, ?_, h2.1, h2.2.1, h2.2.2.2⟩
  · by_cases hs : s.uptodate = false ∨ s.precedence_flag = false
    · rw [if_pos hs, (update_queues_stale env s hs).2.2.2]
    · rw [if_neg hs]
      have h1 : s.uptodate = true := by
        cases hu : s.uptodate
        · exact absurd (Or.inl hu) hs
        · rfl
      have h2 : s.precedence_flag = true := by
        cases hp : s.precedence_flag
        · exact absurd (Or.inr hp) hs
        · rfl
      rw [(update_queues_current env s h1 h2).2.2.2]
      rfl
  · intro h
    have := update_queues_current env s h.1 h.2
    exact ⟨this.1, this.2.1, this.2.2.1⟩

/-- Witness of C6: after one refill of the sample scheduler both flags are set,
and a second refill pushes nothing although the first one pushed three jobs. -/
theorem update_queues_freshness_witness :
    ((update_queues script_env sample_scheduler).uptodate = true ∧
      (update_queues script_env sample_scheduler).precedence_flag = true) ∧
    (update_queues script_env sample_scheduler).main_queue = [Job.mk 2] ∧
    (update_queues script_env (update_queues script_env sample_scheduler)).main_queue
      = (update_queues script_env sample_scheduler).main_queue ∧
    (update_queues script_env (update_queues script_env sample_scheduler)).mpi_queue
      = (update_queues script_env sample_scheduler).mpi_queue :=
  have h := update_queues_freshness script_env sample_scheduler
  have h' := update_queues_freshness script_env (update_queues script_env sample_scheduler)
  ⟨⟨h.2.1, h.2.2.1⟩, by decide, (h'.2.2.2.1 ⟨h.2.1, h.2.2.1⟩).1, (h'.2.2.2.1 ⟨h.2.1, h.2.2.1⟩).2.1⟩

/-- C7: for `n` threads and every index `i < n` the constructor binds the request
hook of thread `i` to one queue, `mpi_queue` if `i = 0` and `n > 1` and
`main_queue` otherwise; it keeps the number of threads and the jobs of each thread. -/
theorem constructor_binds_hooks {G : Type} (graph : G) (schedule : List ThreadSchedule)
    (uptodate precedence_flag : Bool) (i : Nat) (h : i < schedule.length) :
    (Scheduler.new graph schedule uptodate precedence_flag).schedule.length = schedule.length ∧
    (Scheduler.new graph schedule uptodate precedence_flag).schedule[i]?
      = some
          { jobs := (schedule.get ⟨i, h⟩).jobs
            request_hook :=
              some (if i = 0 ∧ schedule.length > 1
                then QueueName.mpi_queue else QueueName.main_queue) } := by
  refine ⟨bind_hooks_length _ _ _, ?_⟩
  show (bind_hooks schedule.length 0 schedule)[i]? = _
  rw [bind_hooks_getElem?, List.getElem?_eq_getElem h]
  simp [ThreadSchedule.set_request_hook, hook_of]

/-- Witness of C7: with two threads, thread 1 is bound to `main_queue` and
thread 0 to `mpi_queue`; with one thread, thread 0 is bound to `main_queue`. -/
theorem constructor_binds_hooks_witness :
    (Scheduler.new () two_threads false false).schedule[1]?
      = some { jobs := [], request_hook := some QueueName.main_queue } ∧
    (Scheduler.new () two_threads false false).schedule[0]?
      = some { jobs := [], request_hook := some QueueName.mpi_queue } ∧
    (Scheduler.new () [{ jobs := [], request_hook := none }] false false).schedule[0]?
      = some { jobs := [], request_hook := some QueueName.main_queue } :=
  ⟨(constructor_binds_hooks () two_threads false false 1 (by decide)).2,
    (constructor_binds_hooks () two_threads false false 0 (by decide)).2,
    (constructor_binds_hooks () [{ jobs := [], request_hook := none }] false false 0
      (by decide)).2⟩

/-! ## The routing invariant -/

theorem hooks_length {G : Type} (s : Scheduler G) : s.hooks.length = s.schedule.length := by
  simp [Scheduler.hooks]

theorem routed_length {G R : Type} (env : Env G R) (n : Nat) (s : Scheduler G)
    (h : Routed env n s) : s.schedule.length = n := by
  rw [← hooks_length, h.1]
  simp

theorem routed_new {G R : Type} (env : Env G R) (graph : G) (schedule : List ThreadSchedule)
    (uptodate precedence_flag : Bool) :
    Routed env schedule.length (Scheduler.new graph schedule uptodate precedence_flag) := by
  refine ⟨?_, ?_, ?_⟩
  · apply List.ext_getElem?
    intro i
    show ((bind_hooks schedule.length 0 schedule).map (fun t => t.request_hook))[i]? = _
    rw [List.getElem?_map, bind_hooks_getElem?, List.getElem?_map]
    by_cases hi : i < schedule.length
    · rw [List.getElem?_eq_getElem hi, List.getElem?_eq_getElem (by simpa using hi)]
      simp [ThreadSchedule.set_request_hook]
    · rw [List.getElem?_eq_none (by omega), List.getElem?_eq_none (by simp; omega)]
      rfl
  · intro job hj
    simp [Scheduler.new] at hj
  · intro job hj
    simp [Scheduler.new] at hj

theorem get_job_hooks {G R : Type} (env : Env G R) (s : Scheduler G) (thread : Nat)
    (queue : QueueName) : (get_job env s thread queue).hooks = s.hooks := by
  cases hq : (refill_if_empty env s queue).queue queue with
  | nil =>
    rw [get_job_empty env s thread queue hq]
    unfold Scheduler.hooks
    rw [refill_if_empty_schedule]
  | cons job rest =>
    rw [get_job_cons env s thread queue job rest hq]
    unfold Scheduler.hooks
    show (push_thread job thread (refill_if_empty env s queue).schedule).map _ = _
    rw [push_thread_hooks, refill_if_empty_schedule]

theorem get_job_mem {G R : Type} (env : Env G R) (s : Scheduler G) (thread : Nat)
    (queue other : QueueName) (job : Job)
    (h : job ∈ (get_job env s thread queue).queue other) :
    job ∈ (refill_if_empty env s queue).queue other := by
  cases hq : (refill_if_empty env s queue).queue queue with
  | nil =>
    rw [get_job_empty env s thread queue hq] at h
    exact h
  | cons first rest =>
    rw [get_job_cons env s thread queue first rest hq] at h
    have e : ({ (refill_if_empty env s queue).set_queue queue rest with
        schedule := push_thread first thread (refill_if_empty env s queue).schedule }
          : Scheduler G).queue other
        = ((refill_if_empty env s queue).set_queue queue rest).queue other := by
      cases other <;> rfl
    rw [e, set_queue_queue] at h
    by_cases ho : other = queue
    · rw [if_pos ho] at h
      rw [ho, hq]
      exact List.mem_cons_of_mem _ h
    · rw [if_neg ho] at h
      exact h

theorem routed_refill {G R : Type} (env : Env G R) (n : Nat) (s : Scheduler G)
    (queue : QueueName) (h : Routed env n s) : Routed env n (refill_if_empty env s queue) := by
  unfold refill_if_empty
  split
  · have hl := routed_length env n s h
    refine ⟨?_, ?_, ?_⟩
    · unfold Scheduler.hooks
      rw [update_queues_schedule]
      exact h.1
    · intro job hj
      rcases update_queues_mem_mpi env s job hj with hm | hm
      · exact h.2.1 job hm
      · rw [hl] at hm
        exact hm
    · intro job hj
      rcases update_queues_mem_main env s job hj with hm | hm
      · exact h.2.2 job hm
      · rw [hl] at hm
        exact hm
  · exact h

theorem routed_get_job {G R : Type} (env : Env G R) (n : Nat) (s : Scheduler G) (thread : Nat)
    (queue : QueueName) (h : Routed env n s) : Routed env n (get_job env s thread queue) := by
  have hr := routed_refill env n s queue h
  refine ⟨?_, ?_, ?_⟩
  · rw [get_job_hooks]
    exact h.1
  · intro job hj
    exact hr.2.1 job (get_job_mem env s thread queue QueueName.mpi_queue job hj)
  · intro job hj
    exact hr.2.2 job (get_job_mem env s thread queue QueueName.main_queue job hj)

theorem reachable_routed {G R : Type} (env : Env G R) (n : Nat) (s : Scheduler G)
    (h : Reachable env n s) : Routed env n s := by
  induction h with
  | construct graph schedule uptodate precedence_flag hl =>
    rw [← hl]
    exact routed_new env graph schedule uptodate precedence_flag
  | request s thread queue _ _ ih => exact routed_get_job env n s thread queue ih
  | surroundings s s' _ hm hp hh ih =>
    refine ⟨?_, ?_, ?_⟩
    · rw [hh]
      exact ih.1
    · rw [hp]
      exact ih.2.1
    · rw [hm]
      exact ih.2.2

theorem routed_hook {G R : Type} (env : Env G R) (n : Nat) (s : Scheduler G)
    (h : Routed env n s) (i : Nat) (hi : i < n) :
    s.hooks[i]? = some (some (hook_of n i)) := by
  rw [h.1, List.getElem?_map, List.getElem?_eq_getElem (by simpa using hi)]
  simp

/-- C8: in every state a scheduler with `n >= 1` threads can reach, each thread
still has the hook the constructor bound, and every queued job sits in a queue
that some thread serves.  With `n = 1` the `mpi_queue` is empty, so every job,
network-tagged or not, is in `main_queue`, which thread 0 serves.  With `n >= 2`
every job in `mpi_queue` is network-tagged and thread 0 serves that queue, and
every job in `main_queue` is not network-tagged and threads `1..n-1` serve it. -/
theorem reachable_jobs_served {G R : Type} (env : Env G R) (n : Nat) (s : Scheduler G)
    (hn : 1 ≤ n) (hr : Reachable env n s) :
    s.schedule.length = n ∧
    (∀ i : Nat, i < n →
      s.hooks[i]? = some (some (if i = 0 ∧ n > 1
        then QueueName.mpi_queue else QueueName.main_queue))) ∧
    (n = 1 → s.mpi_queue = [] ∧ s.hooks[0]? = some (some QueueName.main_queue)) ∧
    (2 ≤ n →
      (∀ job ∈ s.mpi_queue, (env.task_properties job.task).mpi_task = true) ∧
      (∀ job ∈ s.main_queue, (env.task_properties job.task).mpi_task = false) ∧
      s.hooks[0]? = some (some QueueName.mpi_queue) ∧
      (∀ i : Nat, 1 ≤ i → i < n → s.hooks[i]? = some (some QueueName.main_queue))) := by
  have h := reachable_routed env n s hr
  refine ⟨routed_length env n s h, fun i hi => routed_hook env n s h i hi, ?_, ?_⟩
  · intro h1
    subst h1
    refine ⟨?_, ?_⟩
    · apply List.eq_nil_iff_forall_not_mem.2
      intro job hj
      have := h.2.1 job hj
      simp [to_mpi] at this
    · rw [routed_hook env 1 s h 0 (by omega)]
      simp [hook_of]
  · intro h2
    refine ⟨?_, ?_, ?_, ?_⟩
    · intro job hj
      have := h.2.1 job hj
      simp [to_mpi] at this
      exact this.1
    · intro job hj
      have := h.2.2 job hj
      have hgt : n > 1 := by omega
      simpa [to_mpi, hgt] using this
    · rw [routed_hook env n s h 0 (by omega)]
      have hgt : n > 1 := by omega
      simp [hook_of, hgt]
    · intro i h1 hi
      rw [routed_hook env n s h i hi]
      have : i ≠ 0 := by omega
      simp [hook_of, this]

/-- Witness of C8: the state of the two-thread sample scheduler after thread 0
has called its request hook is reachable. -/
theorem reachable_jobs_served_witness :
    Reachable script_env 2 (get_job script_env sample_scheduler 0 QueueName.mpi_queue) ∧
    (get_job script_env sample_scheduler 0 QueueName.mpi_queue).mpi_queue = [Job.mk 3] ∧
    (∀ job ∈ (get_job script_env sample_scheduler 0 QueueName.mpi_queue).main_queue,
      (script_env.task_properties job.task).mpi_task = false) := by
  have hr : Reachable script_env 2 (get_job script_env sample_scheduler 0 QueueName.mpi_queue) :=
    Reachable.request sample_scheduler 0 QueueName.mpi_queue
      (Reachable.construct [[1, 2, 3]] two_threads false false rfl) (by decide)
  exact ⟨hr, by decide,
    ((reachable_jobs_served script_env 2 _ (by decide) hr).2.2.2 (by decide)).2.1⟩

/-! ## Claims on `EnqueuePolicy` -/

theorem superset_text_carries {R : Type} (p : PolicyEnv R) (super sub : TaskProperties R) :
    super.label.data <:+: (superset_text p super sub).data ∧
    sub.label.data <:+: (superset_text p super sub).data ∧
    (p.show_access super.toResourceUser).data <:+: (superset_text p super sub).data ∧
    (p.show_access sub.toResourceUser).data <:+: (superset_text p super sub).data := by
  refine ⟨?_, ?_, ?_, ?_⟩
  · refine ⟨"Not allowed: ".data, ("is no superset of " ++ sub.label ++ endl
      ++ super.label ++ " has access: " ++ endl
      ++ p.show_access super.toResourceUser ++ endl ++ endl
      ++ sub.label ++ " has access: " ++ endl
      ++ p.show_access sub.toResourceUser ++ endl).data, ?_⟩
    simp only [superset_text, String.data_append, List.append_assoc]
  · refine ⟨("Not allowed: " ++ super.label ++ "is no superset of ").data, (endl
      ++ super.label ++ " has access: " ++ endl
      ++ p.show_access super.toResourceUser ++ endl ++ endl
      ++ sub.label ++ " has access: " ++ endl
      ++ p.show_access sub.toResourceUser ++ endl).data, ?_⟩
    simp only [superset_text, String.data_append, List.append_assoc]
  · refine ⟨("Not allowed: " ++ super.label ++ "is no superset of " ++ sub.label ++ endl
      ++ super.label ++ " has access: " ++ endl).data, (endl ++ endl
      ++ sub.label ++ " has access: " ++ endl
      ++ p.show_access sub.toResourceUser ++ endl).data, ?_⟩
    simp only [superset_text, String.data_append, List.append_assoc]
  · refine ⟨("Not allowed: " ++ super.label ++ "is no superset of " ++ sub.label ++ endl
      ++ super.label ++ " has access: " ++ endl
      ++ p.show_access super.toResourceUser ++ endl ++ endl
      ++ sub.label ++ " has access: " ++ endl).data, endl.data, ?_⟩
    simp only [superset_text, String.data_append, List.append_assoc]

/-- C4: `assert_superset( super, sub )` throws exactly when `is_superset( super, sub )`
is false.  The message it throws is a text that contains the labels of `super` and
`sub` and the printed accesses of both, followed by what `functor_backtrace` wrote;
when `is_superset` holds the call returns normally and, being a function of its
arguments only, changes nothing. -/
theorem assert_superset_throws_iff {R : Type} (p : PolicyEnv R) (super sub : TaskProperties R) :
    ((∃ msg : String, EnqueuePolicy.assert_superset p super sub = Except.error msg)
      ↔ p.is_superset super.toResourceUser sub.toResourceUser = false) ∧
    (EnqueuePolicy.assert_superset p super sub = Except.ok ()
      ↔ p.is_superset super.toResourceUser sub.toResourceUser = true) ∧
    (∀ msg : String, EnqueuePolicy.assert_superset p super sub = Except.error msg →
      ∃ text : String, msg = text ++ p.functor_backtrace ∧
        super.label.data <:+: text.data ∧
        sub.label.data <:+: text.data ∧
        (p.show_access super.toResourceUser).data <:+: text.data ∧
        (p.show_access sub.toResourceUser).data <:+: text.data) := by
  cases h : p.is_superset super.toResourceUser sub.toResourceUser with
  | true =>
    have e : EnqueuePolicy.assert_superset p super sub = Except.ok () := by
      simp [EnqueuePolicy.assert_superset, h]
    rw [e]
    refine ⟨?_, ?_, ?_⟩
    · simp
    · simp
    · intro msg hm
      cases hm
  | false =>
    have e : EnqueuePolicy.assert_superset p super sub
        = Except.error (superset_text p super sub ++ p.functor_backtrace) := by
      simp [EnqueuePolicy.assert_superset, h]
    rw [e]
    refine ⟨?_, ?_, ?_⟩
    · simp
    · simp
    · intro msg hm
      injection hm with hm
      exact ⟨superset_text p super sub, hm.symm, superset_text_carries p super sub⟩

/-- Witness of C4: a child that writes resource 2 under a parent that only reads
resource 1 makes `assert_superset` throw, and the message ends in the backtrace. -/
theorem assert_superset_throws_iff_witness :
    sample_policy.is_superset sample_parent.toResourceUser sample_child.toResourceUser = false ∧
    (∃ msg : String,
      EnqueuePolicy.assert_superset sample_policy sample_parent sample_child = Except.error msg) ∧
    EnqueuePolicy.assert_superset sample_policy sample_parent sample_parent = Except.ok () :=
  ⟨by decide,
    (assert_superset_throws_iff sample_policy sample_parent sample_child).1.2 (by decide),
    (assert_superset_throws_iff sample_policy sample_parent sample_parent).2.1.2 (by decide)⟩

/-- C9: `is_serial( a, b )` is true exactly when some access of `a` and some access
of `b` are to overlapping resources and one of the two writes (its mode is `Write`
or `ReadWrite`); the result is the same for any labels and `mpi_task` hints put
in place of those of `a` and `b`. -/
theorem is_serial_iff_conflict {R : Type} (overlaps : R → R → Bool) (a b : TaskProperties R) :
    (EnqueuePolicy.is_serial overlaps a b = true ↔
      ∃ ra ∈ a.access_list, ∃ rb ∈ b.access_list,
        overlaps ra.resource rb.resource = true ∧
        (ra.mode = Mode.Write ∨ ra.mode = Mode.ReadWrite ∨
          rb.mode = Mode.Write ∨ rb.mode = Mode.ReadWrite)) ∧
    (∀ (label_a label_b : String) (mpi_a mpi_b : Bool),
      EnqueuePolicy.is_serial overlaps
          { a with label := label_a, mpi_task := mpi_a }
          { b with label := label_b, mpi_task := mpi_b }
        = EnqueuePolicy.is_serial overlaps a b) := by
  refine ⟨?_, fun _ _ _ _ => rfl⟩
  have hw : ∀ m : Mode, m.writes = true ↔ (m = Mode.Write ∨ m = Mode.ReadWrite) := by
    intro m
    cases m <;> simp [Mode.writes]
  unfold EnqueuePolicy.is_serial ResourceUser.is_serial
  simp only [List.any_eq_true, Bool.and_eq_true, Bool.or_eq_true, hw]
  constructor
  · rintro ⟨ra, hra, rb, hrb, ho, hm⟩
    exact ⟨ra, hra, rb, hrb, ho, by tauto⟩
  · rintro ⟨ra, hra, rb, hrb, ho, hm⟩
    exact ⟨ra, hra, rb, hrb, ho, by tauto⟩

/-! ## Claims on the copy tasks -/

/-- C3 (what the code does): the body of the device-to-device copy task sets the
size and enqueues one asynchronous transfer on stream 0, and that is all: it
synchronizes no stream, whatever stream it is handed, and it creates no task that
could take over its completion. -/
theorem device2device_not_synchronized (sizeofT : Nat) (dim : Dim) (dst src : BufferGuard)
    (cuda_stream : Nat) :
    (∃ transfer : Effect,
      device2device_body sizeofT dim dst src cuda_stream
        = [Effect.size_set dst.buffer src.size.current, transfer] ∧
      transfer.enqueued_on = some 0) ∧
    (∀ stream : Nat,
      Effect.stream_sync stream ∉ device2device_body sizeofT dim dst src cuda_stream) ∧
    synchronized (device2device_body sizeofT dim dst src cuda_stream) = false ∧
    defers_done (device2device_body sizeofT dim dst src cuda_stream) = false := by
  cases dim <;> cases h1 : src.data.is1D <;> cases h2 : dst.data.is1D <;>
    simp [device2device_body, device2device_path, h1, h2,
      device2device_detail.copy, device2device_detail.fast_copy, Effect.enqueued_on,
      synchronized, defers_done, Effect.is_transfer, Effect.shape, Effect.is_create_task]

/-- C10: for every dimension the body of either copy task first sets the current
size of the destination to that of the source and then issues exactly one
transfer.  If source and destination both report `is1D`, `fast_copy` issues one
linear copy of `productOfComponents` of the current size many elements; otherwise
the `copy` overload of the dimension issues a linear (1-D), pitched (2-D) or
volumetric (3-D) transfer. -/
theorem copy_issues_one_transfer (sizeofT : Nat) (dim : Dim) (dst src : BufferGuard)
    (cuda_stream : Nat) :
    (∃ transfer : Effect,
      device2device_body sizeofT dim dst src cuda_stream
        = [Effect.size_set dst.buffer src.size.current, transfer] ∧
      (device2device_body sizeofT dim dst src cuda_stream).countP Effect.is_transfer = 1 ∧
      (device2device_path dim dst src = CopyPath.fast_copy
        ↔ (src.data.is1D = true ∧ dst.data.is1D = true)) ∧
      (if src.data.is1D = true ∧ dst.data.is1D = true then
        transfer = Effect.cudaMemcpyAsync dst.data.pointer src.data.pointer
          (mul_size src.size.currentDataSpace.productOfComponents sizeofT)
          MemcpyKind.cudaMemcpyDeviceToDevice 0
      else
        device2device_path dim dst src = CopyPath.copy dim ∧
        [transfer]
          = device2device_detail.copy sizeofT dim dst.data src.data src.size.currentDataSpace ∧
        transfer.shape = some dim.shape)) ∧
    (∃ transfer : Effect,
      device2host_body sizeofT dim dst src cuda_stream
        = [Effect.size_set dst.buffer src.size.current, transfer,
            Effect.stream_sync cuda_stream] ∧
      (device2host_body sizeofT dim dst src cuda_stream).countP Effect.is_transfer = 1 ∧
      (device2host_path dim dst src = CopyPath.fast_copy
        ↔ (src.is1D = true ∧ dst.is1D = true)) ∧
      (if src.is1D = true ∧ dst.is1D = true then
        transfer = Effect.cudaMemcpyAsync dst.data.pointer src.data.pointer
          (mul_size src.size.currentDataSpace.productOfComponents sizeofT)
          MemcpyKind.cudaMemcpyDeviceToHost 0
      else
        device2host_path dim dst src = CopyPath.copy dim ∧
        [transfer]
          = device2host_detail.copy sizeofT dim dst.data src.data src.size.currentDataSpace ∧
        transfer.shape = some dim.shape)) := by
  constructor
  · cases dim <;> cases h1 : src.data.is1D <;> cases h2 : dst.data.is1D <;>
      simp [device2device_body, device2device_path, h1, h2,
        device2device_detail.copy, device2device_detail.fast_copy,
        Effect.is_transfer, Effect.shape, Dim.shape, List.countP_cons]
  · cases dim <;> cases h1 : src.is1D <;> cases h2 : dst.is1D <;>
      simp [device2host_body, device2host_path, h1, h2,
        device2host_detail.copy, device2host_detail.fast_copy,
        Effect.is_transfer, Effect.shape, Dim.shape, List.countP_cons]

/-- C11 (what the code does): the volumetric device-to-host copy assigns `srcPos`
twice, first from the offset of the source and then from the offset of the
destination, so the transfer carries the offset of the destination as its source
position and no destination position at all; the pitch of its destination pointer
is the pitch of the source.  Only the extent is `(size[0]*sizeof(T), size[1],
size[2])` as in the device-to-device copy, which sets the source position from
the source, the destination position from the destination and takes the pitched
pointer of the destination. -/
theorem device2host_volumetric_params (sizeofT : Nat) (dst src : DataGuard) (size : DataSpace) :
    (∃ params : CudaMemcpy3DParms,
      device2host_detail.copy sizeofT Dim.DIM3 dst src size
        = [Effect.cudaMemcpy3DAsync params 0] ∧
      params.srcPos = some
        { x := mul_size (dst.offset.comp 0) sizeofT
          y := dst.offset.comp 1
          z := dst.offset.comp 2 } ∧
      params.dstPos = none ∧
      params.dstPtr = some
        { ptr := dst.basePointer
          pitch := src.pitch
          xsize := mul_size (src.dataSpace.comp 0) sizeofT
          ysize := src.dataSpace.comp 1 } ∧
      params.extent = some
        { width := mul_size (size.comp 0) sizeofT, height := size.comp 1, depth := size.comp 2 }) ∧
    (∃ params : CudaMemcpy3DParms,
      device2device_detail.copy sizeofT Dim.DIM3 dst src size
        = [Effect.cudaMemcpy3DAsync params 0] ∧
      params.srcPos = some
        { x := mul_size (src.offset.comp 0) sizeofT
          y := src.offset.comp 1
          z := src.offset.comp 2 } ∧
      params.dstPos = some
        { x := mul_size (dst.offset.comp 0) sizeofT
          y := dst.offset.comp 1
          z := dst.offset.comp 2 } ∧
      params.dstPtr = some dst.cudaPitched ∧
      params.extent = some
        { width := mul_size (size.comp 0) sizeofT, height := size.comp 1, depth := size.comp 2 }) :=
  ⟨⟨_, rfl, rfl, rfl, rfl, rfl⟩, ⟨_, rfl, rfl, rfl, rfl, rfl⟩⟩

/-- C12: `copy( dst, src )`, for two device buffers and for a host destination
alike, creates exactly one task.  The task is handed the write guard of the
destination, the read guard of the source and the stream handle, so the accesses
to buffers it declares are `Write` on the destination and `Read` on the source
and nothing else. -/
theorem copy_declares_read_write (sizeofT : Nat) (dim : Dim) (dst src : BufferGuard)
    (env_stream : Nat) :
    (∃ task : CopyTask,
      device2device_tasks sizeofT dim dst src env_stream = [task] ∧
      task.arguments
        = [TaskArgument.write dst.buffer, TaskArgument.read src.buffer,
            TaskArgument.cuda_stream env_stream] ∧
      task.buffer_accesses
        = [{ resource := dst.buffer, mode := Mode.Write },
            { resource := src.buffer, mode := Mode.Read }]) ∧
    (∃ task : CopyTask,
      device2host_tasks sizeofT dim dst src env_stream = [task] ∧
      task.arguments
        = [TaskArgument.write dst.buffer, TaskArgument.read src.buffer,
            TaskArgument.cuda_stream env_stream] ∧
      task.buffer_accesses
        = [{ resource := dst.buffer, mode := Mode.Write },
            { resource := src.buffer, mode := Mode.Read }]) :=
  ⟨⟨_, rfl, rfl, rfl⟩, ⟨_, rfl, rfl, rfl⟩⟩

/-! ## Claims on `TaskMPISend` -/

/-- C13 (counterexample): for an exchange without a device double buffer `run`
does create a copy task before the transmit, the copy from the device buffer to
the host buffer. -/
theorem mpi_send_copies_without_double_buffer :
    single_exchange.hasDeviceDoubleBuffer = false ∧
    TaskMPISend.run 4 sample_startSend single_exchange
      = [SendStep.TaskCopyDeviceToHost_create ExchangeBuffer.DeviceBuffer
            ExchangeBuffer.HostBuffer,
          SendStep.startSend 3 4096 40 7,
          SendStep.TaskMPIWait_create 107] ∧
    (TaskMPISend.run 4 sample_startSend single_exchange).takeWhile SendStep.is_copy ≠ [] := by
  decide

/-- C13 (amended): the copy tasks `run` creates all come before the transmit.
With a device double buffer they are two, device buffer to device double buffer
and then device double buffer to host buffer; without one there is a single copy,
device buffer to host buffer.  So the device-to-device staging copy is created
exactly when double-buffering is enabled, and the copy to the host buffer always. -/
theorem mpi_send_staging (sizeofTYPE : Nat) (startSend : Nat → Nat → Nat → Nat → Nat)
    (exchange : Exchange) :
    (TaskMPISend.run sizeofTYPE startSend exchange).filter SendStep.is_copy
      = (if exchange.hasDeviceDoubleBuffer = true then
          [SendStep.TaskCopyDeviceToDevice_create ExchangeBuffer.DeviceBuffer
              ExchangeBuffer.DeviceDoubleBuffer,
            SendStep.TaskCopyDeviceToHost_create ExchangeBuffer.DeviceDoubleBuffer
              ExchangeBuffer.HostBuffer]
        else
          [SendStep.TaskCopyDeviceToHost_create ExchangeBuffer.DeviceBuffer
              ExchangeBuffer.HostBuffer]) ∧
    (TaskMPISend.run sizeofTYPE startSend exchange).takeWhile SendStep.is_copy
      = (TaskMPISend.run sizeofTYPE startSend exchange).filter SendStep.is_copy ∧
    ((∃ src dst : ExchangeBuffer,
        SendStep.TaskCopyDeviceToDevice_create src dst
          ∈ TaskMPISend.run sizeofTYPE startSend exchange)
      ↔ exchange.hasDeviceDoubleBuffer = true) := by
  cases h : exchange.hasDeviceDoubleBuffer <;>
    simp [TaskMPISend.run, h, SendStep.is_copy, List.takeWhile, List.filter]

/-- C14: `run` creates its copy tasks first, the last of them with the host
buffer as destination, then calls `startSend` once, with the exchange type, the
pointer of the host buffer, `getCurrentSize() * sizeof (TYPE)` bytes and the
communication tag, and then creates one completion-wait task with the request
handle this call returned; nothing follows. -/
theorem mpi_send_order (sizeofTYPE : Nat) (startSend : Nat → Nat → Nat → Nat → Nat)
    (exchange : Exchange) :
    ∃ (copies : List SendStep) (src : ExchangeBuffer),
      TaskMPISend.run sizeofTYPE startSend exchange
        = copies
          ++ [SendStep.startSend exchange.exchangeType exchange.hostPointer
                (mul_size exchange.hostCurrentSize sizeofTYPE) exchange.communicationTag,
              SendStep.TaskMPIWait_create
                (startSend exchange.exchangeType exchange.hostPointer
                  (mul_size exchange.hostCurrentSize sizeofTYPE) exchange.communicationTag)] ∧
      copies.all SendStep.is_copy = true ∧
      copies.getLast? = some (SendStep.TaskCopyDeviceToHost_create src ExchangeBuffer.HostBuffer) ∧
      (TaskMPISend.run sizeofTYPE startSend exchange).countP SendStep.is_startSend = 1 ∧
      (TaskMPISend.run sizeofTYPE startSend exchange).countP SendStep.is_wait = 1 := by
  cases h : exchange.hasDeviceDoubleBuffer
  · refine ⟨[SendStep.TaskCopyDeviceToHost_create ExchangeBuffer.DeviceBuffer
      ExchangeBuffer.HostBuffer], ExchangeBuffer.DeviceBuffer, ?_, ?_, ?_, ?_, ?_⟩ <;>
      simp [TaskMPISend.run, h, SendStep.is_copy, SendStep.is_startSend, SendStep.is_wait,
        List.countP_cons]
  · refine ⟨[SendStep.TaskCopyDeviceToDevice_create ExchangeBuffer.DeviceBuffer
        ExchangeBuffer.DeviceDoubleBuffer,
      SendStep.TaskCopyDeviceToHost_create ExchangeBuffer.DeviceDoubleBuffer
        ExchangeBuffer.HostBuffer], ExchangeBuffer.DeviceDoubleBuffer, ?_, ?_, ?_, ?_, ?_⟩ <;>
      simp [TaskMPISend.run, h, SendStep.is_copy, SendStep.is_startSend, SendStep.is_wait,
        List.countP_cons]

/-! ## The diagnostic export -/

theorem stale_or_current {G : Type} (s : Scheduler G) :
    (s.uptodate = false ∨ s.precedence_flag = false) ∨
      (s.uptodate = true ∧ s.precedence_flag = true) := by
  cases s.uptodate <;> cases s.precedence_flag <;> simp

theorem same_scheduling_update_queues {G R : Type} (env : Env G R) (s t : Scheduler G)
    (h : same_scheduling s t) :
    same_scheduling (update_queues env s) (update_queues env t) := by
  obtain ⟨hg, hs, hu, hp, hm, hq, hc⟩ := h
  have fs := update_queues_flags env s
  have ft := update_queues_flags env t
  refine ⟨?_, ?_, fs.1.trans ft.1.symm, fs.2.trans ft.2.symm, ?_, ?_, ?_⟩
  · rcases stale_or_current s with h1 | h1
    · have h2 : t.uptodate = false ∨ t.precedence_flag = false := by rw [← hu, ← hp]; exact h1
      rw [(update_queues_stale env s h1).2.2.1, (update_queues_stale env t h2).2.2.1, hg]
    · have h2 : t.uptodate = true ∧ t.precedence_flag = true := by rw [← hu, ← hp]; exact h1
      rw [(update_queues_current env s h1.1 h1.2).2.2.1,
        (update_queues_current env t h2.1 h2.2).2.2.1, hg]
  · rw [update_queues_schedule, update_queues_schedule, hs]
  · rcases stale_or_current s with h1 | h1
    · have h2 : t.uptodate = false ∨ t.precedence_flag = false := by rw [← hu, ← hp]; exact h1
      rw [(update_queues_stale env s h1).2.1, (update_queues_stale env t h2).2.1, hg, hs, hm]
    · have h2 : t.uptodate = true ∧ t.precedence_flag = true := by rw [← hu, ← hp]; exact h1
      rw [(update_queues_current env s h1.1 h1.2).1,
        (update_queues_current env t h2.1 h2.2).1, hm]
  · rcases stale_or_current s with h1 | h1
    · have h2 : t.uptodate = false ∨ t.precedence_flag = false := by rw [← hu, ← hp]; exact h1
      rw [(update_queues_stale env s h1).1, (update_queues_stale env t h2).1, hg, hs, hq]
    · have h2 : t.uptodate = true ∧ t.precedence_flag = true := by rw [← hu, ← hp]; exact h1
      rw [(update_queues_current env s h1.1 h1.2).2.1,
        (update_queues_current env t h2.1 h2.2).2.1, hq]
  · rcases stale_or_current s with h1 | h1
    · have h2 : t.uptodate = false ∨ t.precedence_flag = false := by rw [← hu, ← hp]; exact h1
      rw [(update_queues_stale env s h1).2.2.2, (update_queues_stale env t h2).2.2.2, hc]
    · have h2 : t.uptodate = true ∧ t.precedence_flag = true := by rw [← hu, ← hp]; exact h1
      rw [(update_queues_current env s h1.1 h1.2).2.2.2,
        (update_queues_current env t h2.1 h2.2).2.2.2, hc]

theorem same_scheduling_queue {G : Type} (s t : Scheduler G) (h : same_scheduling s t)
    (queue : QueueName) : s.queue queue = t.queue queue := by
  cases queue
  · exact h.2.2.2.2.1
  · exact h.2.2.2.2.2.1

theorem same_scheduling_refill {G R : Type} (env : Env G R) (s t : Scheduler G)
    (queue : QueueName) (h : same_scheduling s t) :
    same_scheduling (refill_if_empty env s queue) (refill_if_empty env t queue) := by
  unfold refill_if_empty
  rw [same_scheduling_queue s t h queue]
  split
  · exact same_scheduling_update_queues env s t h
  · exact h

theorem same_scheduling_get_job {G R : Type} (env : Env G R) (s t : Scheduler G) (thread : Nat)
    (queue : QueueName) (h : same_scheduling s t) :
    same_scheduling (get_job env s thread queue) (get_job env t thread queue) := by
  have hr := same_scheduling_refill env s t queue h
  have hq := same_scheduling_queue _ _ hr queue
  cases hs : (refill_if_empty env s queue).queue queue with
  | nil =>
    rw [get_job_empty env s thread queue hs, get_job_empty env t thread queue (hq ▸ hs)]
    exact hr
  | cons job rest =>
    rw [get_job_cons env s thread queue job rest hs,
      get_job_cons env t thread queue job rest (hq ▸ hs)]
    obtain ⟨hg, hsch, hu, hp, hm, hmq, hc⟩ := hr
    cases queue
    · exact ⟨hg, by simp only [hsch], hu, hp, rfl, hmq, hc⟩
    · exact ⟨hg, by simp only [hsch], hu, hp, hm, rfl, hc⟩

theorem export_graph_silent {G : Type} (s : Scheduler G) (h : s.write_graph = false) :
    export_graph s = s := by
  unfold export_graph
  simp [h]

theorem update_queues_silent {G R : Type} (env : Env G R) (s : Scheduler G)
    (h : s.write_graph = false) :
    (update_queues env s).dot_files = s.dot_files ∧ (update_queues env s).step = s.step ∧
    (update_queues env s).write_graph = false := by
  have key : ∀ s2 : Scheduler G, s2.write_graph = false → s2.dot_files = s.dot_files →
      s2.step = s.step →
      (export_graph s2).dot_files = s.dot_files ∧ (export_graph s2).step = s.step ∧
      (export_graph s2).write_graph = false := by
    intro s2 h1 h2 h3
    rw [export_graph_silent s2 h1]
    exact ⟨h2, h3, h1⟩
  unfold update_queues
  dsimp only
  split
  · have hr := foldl_push_ready_rest env (env.update_graph s.graph).1
      { s with
        uptodate := (test_and_set s.uptodate).2
        precedence_flag := (test_and_set s.precedence_flag).2
        graph := (env.update_graph s.graph).2
        graph_updates := s.graph_updates + 1 }
    obtain ⟨_, _, _, _, hw, hst, hd⟩ := hr
    exact key _ (hw.trans h) hd hst
  · exact key _ h rfl rfl

theorem get_job_silent {G R : Type} (env : Env G R) (s : Scheduler G) (thread : Nat)
    (queue : QueueName) (h : s.write_graph = false) :
    (get_job env s thread queue).dot_files = s.dot_files := by
  have hr : (refill_if_empty env s queue).dot_files = s.dot_files := by
    unfold refill_if_empty
    split
    · exact (update_queues_silent env s h).1
    · rfl
  cases hs : (refill_if_empty env s queue).queue queue with
  | nil =>
    rw [get_job_empty env s thread queue hs]
    exact hr
  | cons job rest =>
    rw [get_job_cons env s thread queue job rest hs]
    cases queue <;> exact hr

/-- C15: the diagnostic export is observational.  Whatever value `write_graph`
is given in a scheduler state, `update_queues` and `get_job` end with the same
graph, the same two flags, the same two queues and the same jobs handed to the
threads.  The constructor sets `write_graph` to `false`, and while it is `false`
neither `update_queues` nor `get_job` writes a graph file. -/
theorem export_is_observational {G R : Type} (env : Env G R) (s : Scheduler G) (thread : Nat)
    (queue : QueueName) (graph : G) (schedule : List ThreadSchedule)
    (uptodate precedence_flag : Bool) :
    same_scheduling (update_queues env { s with write_graph := true })
      (update_queues env { s with write_graph := false }) ∧
    same_scheduling (get_job env { s with write_graph := true } thread queue)
      (get_job env { s with write_graph := false } thread queue) ∧
    (Scheduler.new graph schedule uptodate precedence_flag).write_graph = false ∧
    (Scheduler.new graph schedule uptodate precedence_flag).dot_files = [] ∧
    (s.write_graph = false →
      (update_queues env s).dot_files = s.dot_files ∧
      (get_job env s thread queue).dot_files = s.dot_files) := by
  have h : same_scheduling { s with write_graph := true } { s with write_graph := false } :=
    ⟨rfl, rfl, rfl, rfl, rfl, rfl, rfl⟩
  exact ⟨same_scheduling_update_queues env _ _ h, same_scheduling_get_job env _ _ thread queue h,
    rfl, rfl, fun hw => ⟨(update_queues_silent env s hw).1, get_job_silent env s thread queue hw⟩⟩

/-- Witness of C15: the sample scheduler has `write_graph` false, a request of
thread 0 writes no file, and with the export switched on the request writes
`step_0.dot` yet hands out the same job. -/
theorem export_is_observational_witness :
    sample_scheduler.write_graph = false ∧
    (get_job script_env sample_scheduler 0 QueueName.mpi_queue).dot_files = [] ∧
    (get_job script_env { sample_scheduler with write_graph := true } 0
      QueueName.mpi_queue).dot_files = ["step_0.dot"] ∧
    (get_job script_env { sample_scheduler with write_graph := true } 0
      QueueName.mpi_queue).schedule
      = (get_job script_env { sample_scheduler with write_graph := false } 0
          QueueName.mpi_queue).schedule := by
  have h := export_is_observational script_env sample_scheduler 0 QueueName.mpi_queue
    [[1, 2, 3]] two_threads false false
  exact ⟨rfl, (h.2.2.2.2 rfl).2, by decide, h.2.1.2.1⟩

end pmacc

namespace picongpu

/-! ## Claims on the Lehe derivative -/

theorem forwardDerivative_congr (step : Fin 3 → ℚ) (direction : Fin 3) (data data' : DataBox)
    (h : ∀ o ∈ forwardDerivative_reads direction, data o = data' o) :
    forwardDerivative step direction data = forwardDerivative step direction data' := by
  unfold forwardDerivative
  rw [h _ (by simp [forwardDerivative_reads]), h _ (by simp [forwardDerivative_reads])]

theorem forwardDerivative_shift_congr (step : Fin 3 → ℚ) (direction : Fin 3)
    (data data' : DataBox) (offset : GridOffset)
    (h : ∀ o ∈ (forwardDerivative_reads direction).map (fun o => offset + o),
      data o = data' o) :
    forwardDerivative step direction (data.shift offset)
      = forwardDerivative step direction (data'.shift offset) := by
  apply forwardDerivative_congr
  intro o ho
  exact h _ (List.mem_map.2 ⟨o, ho, rfl⟩)

theorem reads_determine (step : Fin 3 → ℚ) (delta : ℚ) (c d : Fin 3) (data data' : DataBox)
    (h : ∀ o ∈ DerivativeFunctor.reads c d, data o = data' o) :
    DerivativeFunctor step delta c d data = DerivativeFunctor step delta c d data' := by
  unfold DerivativeFunctor
  unfold DerivativeFunctor.reads at h
  split
  · rename_i hcd
    rw [if_pos hcd] at h
    unfold CherenkovFreeFunctor.reads at h
    unfold CherenkovFreeFunctor.apply
    dsimp only at h ⊢
    rw [forwardDerivative_congr step d data data' (fun o ho => h o (by simp [ho])),
      forwardDerivative_shift_congr step d data data' _
        (fun o ho => h o (by simp only [List.mem_append]; tauto)),
      forwardDerivative_shift_congr step d data data' (-along (d + 1) 1)
        (fun o ho => h o (by simp only [List.mem_append]; tauto)),
      forwardDerivative_shift_congr step d data data' (along (d + 2) 1)
        (fun o ho => h o (by simp only [List.mem_append]; tauto)),
      forwardDerivative_shift_congr step d data data' (-along (d + 2) 1)
        (fun o ho => h o (by simp only [List.mem_append]; tauto)),
      h (along d 2) (by simp), h (along d (-1)) (by simp)]
  · rename_i hcd
    rw [if_neg hcd] at h
    unfold GeneralFunctor.reads at h
    unfold GeneralFunctor.apply
    dsimp only
    rw [forwardDerivative_congr step d data data'
        (fun o ho => h o (by simp only [List.mem_append]; tauto)),
      forwardDerivative_shift_congr step d data data' (along c 1)
        (fun o ho => h o (by simp only [List.mem_append]; tauto)),
      forwardDerivative_shift_congr step d data data' (-along c 1)
        (fun o ho => h o (by simp only [List.mem_append]; tauto))]

/-- C17: in exact arithmetic the weights of the functor along the Cherenkov-free
direction satisfy `alpha + 2*betaDir1 + 2*betaDir2 + 3*delta = 1` for every
`delta` and all cell sizes, the weights of the functor for the other directions
are `alpha = 3/4` and `beta = 1/8` with `alpha + 2*beta = 1`, and for a field
that is affine in the grid coordinates the functor selected for any pair of
directions returns the slope of the field along the derivative direction, its
increment per cell over the step. -/
theorem lehe_weights_sum_to_one (step : Fin 3 → ℚ) (delta : ℚ)
    (T_cherenkovFreeDirection T_direction : Fin 3) (value : ℚ) (increment : Fin 3 → ℚ) :
    ((CherenkovFreeFunctor.new step delta T_direction).alpha
        + 2 * betaDir step T_direction (T_direction + 1)
        + 2 * betaDir step T_direction (T_direction + 2)
        + 3 * (CherenkovFreeFunctor.new step delta T_direction).delta = 1) ∧
    (GeneralFunctor.alpha = 3 / 4 ∧ 2 * GeneralFunctor.beta = 2 / 8 ∧
      GeneralFunctor.alpha + 2 * GeneralFunctor.beta = 1) ∧
    DerivativeFunctor step delta T_cherenkovFreeDirection T_direction
        (affine_field value increment)
      = increment T_direction / step T_direction := by
  refine ⟨?_, ?_, ?_⟩
  · simp only [CherenkovFreeFunctor.new]
    ring
  · simp only [GeneralFunctor.alpha, GeneralFunctor.beta]
    norm_num
  · fin_cases T_cherenkovFreeDirection <;> fin_cases T_direction <;>
      simp [DerivativeFunctor, CherenkovFreeFunctor.apply, CherenkovFreeFunctor.new,
        GeneralFunctor.apply, GeneralFunctor.alpha, GeneralFunctor.beta, forwardDerivative,
        DataBox.shift, affine_field, along] <;> ring

/-- C18: for every Cherenkov-free direction and every derivative direction, each
offset the selected functor reads has all components between -1 and 2, that is
within the lower margin 1 and the upper margin 2 that `GetMargin` declares in
every dimension; the functor depends on the field at these offsets only; along
the Cherenkov-free direction the functor reads offset 2 and offset -1. -/
theorem lehe_reads_within_margin (T_cherenkovFreeDirection T_direction : Fin 3) :
    (∀ o ∈ DerivativeFunctor.reads T_cherenkovFreeDirection T_direction, ∀ i : Fin 3,
      -1 ≤ o i ∧ o i ≤ 2 ∧
      -GetMargin.LowerMargin i ≤ o i ∧ o i ≤ GetMargin.UpperMargin i) ∧
    (∀ i : Fin 3, GetMargin.LowerMargin i = 1 ∧ GetMargin.UpperMargin i = 2) ∧
    (∀ (step : Fin 3 → ℚ) (delta : ℚ) (data data' : DataBox),
      (∀ o ∈ DerivativeFunctor.reads T_cherenkovFreeDirection T_direction, data o = data' o) →
      DerivativeFunctor step delta T_cherenkovFreeDirection T_direction data
        = DerivativeFunctor step delta T_cherenkovFreeDirection T_direction data') ∧
    (along T_cherenkovFreeDirection 2
        ∈ DerivativeFunctor.reads T_cherenkovFreeDirection T_cherenkovFreeDirection ∧
      along T_cherenkovFreeDirection (-1)
        ∈ DerivativeFunctor.reads T_cherenkovFreeDirection T_cherenkovFreeDirection ∧
      along T_cherenkovFreeDirection 2 T_cherenkovFreeDirection = 2 ∧
      along T_cherenkovFreeDirection (-1) T_cherenkovFreeDirection = -1) := by
  refine ⟨?_, ?_, ?_, ?_⟩
  · revert T_cherenkovFreeDirection T_direction
    decide
  · intro i
    exact ⟨rfl, rfl⟩
  · intro step delta data data' h
    exact reads_determine step delta T_cherenkovFreeDirection T_direction data data' h
  · revert T_cherenkovFreeDirection
    decide

/-- Witness of C18: two fields that agree on what the functor reads along the
Cherenkov-free direction 0 get the same derivative, although they differ at
offset 3. -/
theorem lehe_reads_within_margin_witness :
    DerivativeFunctor (fun _ => 1) 0 0 0 (fun o => if o 0 = 3 then 1 else 0)
      = DerivativeFunctor (fun _ => 1) 0 0 0 (fun _ => 0) :=
  (lehe_reads_within_margin 0 0).2.2.1 (fun _ => 1) 0 (fun o => if o 0 = 3 then 1 else 0)
    (fun _ => 0) (by decide)

/-! ## Claims on the checkpoint plugin -/

theorem load_loop (backends : List String) :
    ∀ st : Checkpoint,
      (backends.foldl (fun st backend => { st with loaded := st.loaded ++ [backend] }) st)
        = { st with loaded := st.loaded ++ backends } := by
  induction backends with
  | nil => intro st; simp
  | cons b bs ih =>
    intro st
    rw [List.foldl_cons, ih]
    simp

theorem load_all_eq (c : Checkpoint) :
    load_all c = { c with loaded := c.loaded ++ c.ioBackends } := by
  unfold load_all
  exact load_loop c.ioBackends c

theorem pluginLoad_throw (c : Checkpoint)
    (h : c.ioBackends ≠ [] ∧
      (c.checkpointBackendName ∉ c.ioBackends ∨ c.restartBackendName ∉ c.ioBackends)) :
    c.pluginLoad.1 = c ∧ c.pluginLoad.2.isSome = true := by
  obtain ⟨hne, hn⟩ := h
  have he : c.ioBackends.isEmpty = false := by
    cases hb : c.ioBackends with
    | nil => exact absurd hb hne
    | cons a l => rfl
  unfold Checkpoint.pluginLoad
  by_cases hc : c.checkpointBackendName ∈ c.ioBackends
  · have hr : c.restartBackendName ∉ c.ioBackends := by
      rcases hn with hn | hn
      · exact absurd hc hn
      · exact hn
    simp [he, hc, hr]
  · simp [he, hc]

theorem pluginLoad_pass (c : Checkpoint)
    (h : ¬ (c.ioBackends ≠ [] ∧
      (c.checkpointBackendName ∉ c.ioBackends ∨ c.restartBackendName ∉ c.ioBackends))) :
    c.pluginLoad
      = (load_all (if c.restartFilename = "" then { c with restartFilename := c.checkpointFilename }
          else c), none) := by
  unfold Checkpoint.pluginLoad
  by_cases he : c.ioBackends = []
  · simp [he]
  · have hc : c.checkpointBackendName ∈ c.ioBackends := by
      by_contra hc
      exact h ⟨he, Or.inl hc⟩
    have hr : c.restartBackendName ∈ c.ioBackends := by
      by_contra hr
      exact h ⟨he, Or.inr hr⟩
    simp [hc, hr]

/-- C19: `pluginLoad` throws exactly when a backend is registered and the
checkpoint backend name or the restart backend name is not a registered backend.
When it throws, the plugin is left as it was: no backend has been loaded and
`restartFilename` is unchanged.  When it does not throw, an empty
`restartFilename` has become `checkpointFilename` and any other is kept, and
`load( )` has been called on the registered backends in order, once on each
(the keys of the map being distinct). -/
theorem pluginLoad_throws_iff (c : Checkpoint) (h : c.ioBackends.Nodup) :
    (c.pluginLoad.2.isSome = true ↔
      (c.ioBackends ≠ [] ∧
        (c.checkpointBackendName ∉ c.ioBackends ∨ c.restartBackendName ∉ c.ioBackends))) ∧
    (c.pluginLoad.2.isSome = true →
      c.pluginLoad.1 = c ∧ c.pluginLoad.1.loaded = c.loaded ∧
      c.pluginLoad.1.restartFilename = c.restartFilename) ∧
    (c.pluginLoad.2 = none →
      c.pluginLoad.1.restartFilename
        = (if c.restartFilename = "" then c.checkpointFilename else c.restartFilename) ∧
      c.pluginLoad.1.loaded = c.loaded ++ c.ioBackends ∧
      c.pluginLoad.1.ioBackends = c.ioBackends ∧
      (∀ backend ∈ c.ioBackends,
        c.pluginLoad.1.loaded.count backend = c.loaded.count backend + 1) ∧
      (∀ backend : String, backend ∉ c.ioBackends →
        c.pluginLoad.1.loaded.count backend = c.loaded.count backend)) := by
  by_cases hc : c.ioBackends ≠ [] ∧
      (c.checkpointBackendName ∉ c.ioBackends ∨ c.restartBackendName ∉ c.ioBackends)
  · have ht := pluginLoad_throw c hc
    refine ⟨⟨fun _ => hc, fun _ => ht.2⟩, ?_, ?_⟩
    · intro _
      rw [ht.1]
      exact ⟨rfl, rfl, rfl⟩
    · intro hn
      rw [hn] at ht
      exact absurd ht.2 (by simp)
  · have hp := pluginLoad_pass c hc
    refine ⟨⟨?_, fun h' => absurd h' hc⟩, ?_, ?_⟩
    · intro hs
      rw [hp] at hs
      exact absurd hs (by simp)
    · intro hs
      rw [hp] at hs
      exact absurd hs (by simp)
    · intro _
      rw [hp, load_all_eq]
      by_cases hf : c.restartFilename = ""
      · simp only [hf, if_true]
        refine ⟨trivial, trivial, trivial, ?_, ?_⟩
        · intro backend hb
          show (c.loaded ++ c.ioBackends).count backend = _
          rw [List.count_append, List.count_eq_one_of_mem h hb]
        · intro backend hb
          show (c.loaded ++ c.ioBackends).count backend = _
          rw [List.count_append, List.count_eq_zero.2 hb]
          rfl
      · simp only [hf, if_false]
        refine ⟨trivial, trivial, trivial, ?_, ?_⟩
        · intro backend hb
          show (c.loaded ++ c.ioBackends).count backend = _
          rw [List.count_append, List.count_eq_one_of_mem h hb]
        · intro backend hb
          show (c.loaded ++ c.ioBackends).count backend = _
          rw [List.count_append, List.count_eq_zero.2 hb]
          rfl

/-- Witness of C19: a plugin built with both backends loads both once and takes
the checkpoint filename for the restart; with the checkpoint backend renamed to
an unknown one it throws and is left as it was. -/
theorem pluginLoad_throws_iff_witness :
    (Checkpoint.new true true).ioBackends.Nodup ∧
    (Checkpoint.new true true).pluginLoad.2 = none ∧
    (Checkpoint.new true true).pluginLoad.1.loaded = ["adios", "hdf5"] ∧
    (Checkpoint.new true true).pluginLoad.1.restartFilename = "checkpoint" ∧
    ({ Checkpoint.new true true with checkpointBackendName := "netcdf" } : Checkpoint).pluginLoad.1
      = { Checkpoint.new true true with checkpointBackendName := "netcdf" } := by
  have hn : (Checkpoint.new true true).ioBackends.Nodup := by decide
  have hp : (Checkpoint.new true true).pluginLoad.2 = none := by decide
  have h := pluginLoad_throws_iff (Checkpoint.new true true) hn
  have hn' : ({ Checkpoint.new true true with checkpointBackendName := "netcdf" }
      : Checkpoint).ioBackends.Nodup := by decide
  have h' := pluginLoad_throws_iff
    { Checkpoint.new true true with checkpointBackendName := "netcdf" } hn'
  exact ⟨hn, hp, (h.2.2 hp).2.1, (h.2.2 hp).1, (h'.2.1 (by decide)).1⟩

end picongpu
